import Mathlib

/-!
Verification of the object-storage-api metadata/object-store coordination core.

The Python source is shallowly embedded: MongoDB collections become lists of
document structures, each repository / service method becomes a Lean function
returning an `Except`-style outcome together with the new collection state and
the list of external side effects it performed (in order), and the PyMongo /
S3 calls are modelled by their documented effect on that state.
-/

namespace ObjectStorage

/-! ## Identifier validation (`core/custom_object_id.py`, bson `ObjectId`) -/

/-- Character-wise ASCII lower-casing, the behaviour of Python's `str.lower()` on the
ASCII strings this API handles. -/
def lowerString (s : String) : String := String.mk (s.toList.map Char.toLower)

/-- A hexadecimal digit, either case (as accepted by `bson.ObjectId.is_valid`). -/
def isHexDigitChar (c : Char) : Bool :=
  c.isDigit || ('a' ≤ c && c ≤ 'f') || ('A' ≤ c && c ≤ 'F')

/-- `bson.ObjectId.is_valid` on a string: exactly 24 hexadecimal characters.
`CustomObjectId.__init__` raises `InvalidObjectIdError` when this fails. -/
def isValidObjectId (s : String) : Bool :=
  s.length == 24 && s.toList.all isHexDigitChar

/-- `CustomObjectId(value)`: `none` models the raised `InvalidObjectIdError`; on success the
id is held in its canonical form (`str(ObjectId(value))` lower-cases the hex digits). -/
def parseObjectId (s : String) : Option String :=
  if isValidObjectId s then some (lowerString s) else none

/-! ## File name helpers (`pathlib.Path.suffix`, `mimetypes.guess_type`) -/

/-- Index of the last '.' in a character list, if any. -/
def lastDotIdx (cs : List Char) : Option Nat :=
  cs.enum.foldl (fun acc p => if p.2 = '.' then some p.1 else acc) none

/-- `pathlib.Path(name).suffix`: the substring from the last dot, provided that dot is
neither the first nor the last character of the name. -/
def pathSuffix (name : String) : String :=
  let cs := name.toList
  match lastDotIdx cs with
  | none => ""
  | some i => if 0 < i && i < cs.length - 1 then String.mk (cs.drop i) else ""

/-- The extension component of `os.path.splitext(name)` (as used by `mimetypes.guess_type`):
the substring from the last dot, provided some earlier character of the name is not a dot. -/
def splitextExt (name : String) : String :=
  let cs := name.toList
  match lastDotIdx cs with
  | none => ""
  | some i => if 0 < i && (cs.take i).any (fun c => c ≠ '.') then String.mk (cs.drop i) else ""

/-- The relevant rows of the Python `mimetypes` extension table (lower-case keys). The real
table is larger; this model is faithful on the extensions exercised by this API (images and
the documented attachment types). -/
def mimeTypesMap : List (String × String) :=
  [(".png", "image/png"), (".jpg", "image/jpeg"), (".jpeg", "image/jpeg"),
   (".jpe", "image/jpeg"), (".gif", "image/gif"), (".bmp", "image/bmp"),
   (".webp", "image/webp"), (".tif", "image/tiff"), (".tiff", "image/tiff"),
   (".svg", "image/svg+xml"), (".txt", "text/plain"), (".csv", "text/csv"),
   (".html", "text/html"), (".pdf", "application/pdf"), (".json", "application/json"),
   (".zip", "application/zip"), (".mp4", "video/mp4"), (".rtf", "application/rtf"),
   (".doc", "application/msword"),
   (".docx", "application/vnd.openxmlformats-officedocument.wordprocessingml.document"),
   (".xlsx", "application/vnd.openxmlformats-officedocument.spreadsheetml.sheet")]

/-- `mimetypes.guess_type(filename)[0]`: the MIME type inferred from the (lower-cased) file
extension, or `none` when the extension is absent or unknown. (The stdlib's special handling
of compressed suffixes such as `.gz` is not modelled; no caller here uses them.) -/
def mimetypesGuessType (filename : String) : Option String :=
  mimeTypesMap.lookup (lowerString (splitextExt filename))

/-- Modelled from the spec: `object_storage_api/services/utils.py` (the `generate_code`
helper) and the `code` fields of `AttachmentIn`/`ImageIn` are absent from `src/`; only the
repositories that compare stored `code` values (and a unit test of the helper) remain. The
spec states that the uniqueness comparison is a case-sensitive exact match on `file_name`,
so `generate_code` is modelled as the identity on the file name. -/
def generate_code (value : String) : String := value

/-! ## Configuration (`core/config.py`) -/

/-- The configuration values the embedded core reads. `upload_limit` for both entity kinds
and `attachment.allowed_file_extensions` are read by the services but their declarations are
absent from the `src/` snapshot of `core/config.py`; they are modelled from the spec's
configuration surface (per-entity upload limits, allow-listed extensions, max size). -/
structure Config where
  attachment_upload_limit : Nat
  image_upload_limit : Nat
  attachment_allowed_file_extensions : List String
  attachment_max_size_bytes : Nat
deriving Repr, DecidableEq

/-! ## Errors (`core/exceptions.py`) -/

/-- The error taxonomy of `core/exceptions.py`. `fileTypeMismatch` is
`FileTypeMismatchException` (the older service iteration in `src/` refers to it as
`InvalidFilenameExtension`); `duplicateKey` models PyMongo's `DuplicateKeyError` raised by
`insert_one` when the explicitly supplied `_id` already exists. -/
inductive APIError where
  | invalidObjectId
  | missingRecord
  | duplicateRecord
  | uploadLimitReached
  | unsupportedFileExtension
  | fileTypeMismatch
  | invalidImageFile
  | duplicateKey
deriving Repr, DecidableEq

/-! ## Documents (`models/attachment.py`, `models/image.py`) -/

/-- An attachment document as stored in the `attachments` collection. `id` and `entity_id`
hold canonical (lower-case) ObjectId hex strings. The `code` field is modelled from the spec
(see `generate_code`); the created/modified timestamps are carried by a mixin absent from
`src/` and are not needed by any claim, so they are not modelled. -/
structure AttachmentDoc where
  id : String
  entity_id : String
  file_name : String
  code : String
  object_key : String
  title : Option String
  description : Option String
deriving Repr, DecidableEq, Inhabited

/-- An image document as stored in the `images` collection. `primary` and
`thumbnail_base64` are used throughout the repositories/services but their field
declarations are absent from the `src/` snapshot of `models/image.py`; they are modelled
from the spec (a boolean primary flag and the denormalized thumbnail string). -/
structure ImageDoc where
  id : String
  entity_id : String
  file_name : String
  code : String
  object_key : String
  title : Option String
  description : Option String
  primary : Bool
  thumbnail_base64 : String
deriving Repr, DecidableEq, Inhabited

/-! ## External side effects

Each service operation additionally returns the ordered list of calls it made against the
two external stores, so that ordering / absence-of-side-effect claims can be stated. -/

/-- One external call, in the order issued. -/
inductive Event where
  /-- `s3_client.generate_presigned_post` for the given object key. -/
  | presignedPostIssued (object_key : String)
  /-- A thumbnail was generated from the uploaded bytes (`generate_thumbnail_base64_str`). -/
  | thumbnailGenerated
  /-- `s3_client.upload_fileobj`: the given bytes were uploaded at the given key. -/
  | objectUploaded (object_key : String) (bytes : List Nat)
  /-- `s3_client.delete_object` for one key. -/
  | objectDeleted (object_key : String)
  /-- One `s3_client.delete_objects` call for a batch of keys. -/
  | objectsDeletedBatch (keys : List String)
  /-- `insert_one` of a metadata document with the given `_id`. -/
  | docInserted (doc_id : String)
  /-- `update_one`/`bulk_write` touching the metadata document with the given `_id`. -/
  | docUpdated (doc_id : String)
  /-- `delete_one` of the metadata document with the given `_id`. -/
  | docDeleted (doc_id : String)
deriving Repr, DecidableEq

/-! ## Attachment repository (`repositories/attachment.py`) -/

namespace AttachmentRepo

/-- `AttachmentRepo._is_duplicate`: `find_one({"entity_id": e, "code": c, "_id": {"$ne": x}})`
is non-`None`. When no exclusion id is given the source passes `None`, and `$ne: None`
matches every document (every stored `_id` is non-null), which `some d.id ≠ none` mirrors. -/
def is_duplicate (docs : List AttachmentDoc) (entity_id code : String)
    (attachment_id : Option String) : Bool :=
  docs.any (fun d => d.entity_id == entity_id && d.code == code && some d.id != attachment_id)

/-- `find_one({"_id": oid})` for an already-parsed id. -/
def findById (docs : List AttachmentDoc) (oid : String) : Option AttachmentDoc :=
  docs.find? (fun d => d.id == oid)

/-- `AttachmentRepo.get`: parse the id (`InvalidObjectIdError` on failure, re-raised with a
404 status), then `find_one`; `MissingRecordError` when no document matches. -/
def get (docs : List AttachmentDoc) (attachment_id : String) : Except APIError AttachmentDoc :=
  match parseObjectId attachment_id with
  | none => .error .invalidObjectId
  | some oid =>
    match findById docs oid with
    | some d => .ok d
    | none => .error .missingRecord

/-- `AttachmentRepo.create`: duplicate pre-check, then `insert_one` (which raises
PyMongo's `DuplicateKeyError` if the explicitly supplied `_id` already exists, the
collection's `_id` unique index), then the re-read `get(str(result.inserted_id))`. -/
def create (docs : List AttachmentDoc) (attachment : AttachmentDoc) :
    Except APIError (List AttachmentDoc × AttachmentDoc) :=
  if is_duplicate docs attachment.entity_id attachment.code none then
    .error .duplicateRecord
  else if docs.any (fun d => d.id == attachment.id) then
    .error .duplicateKey
  else
    let docs' := docs ++ [attachment]
    match findById docs' attachment.id with
    | some d => .ok (docs', d)
    | none => .error .missingRecord

/-- `AttachmentRepo.list`: build the filter conjunction; an invalid `entity_id` filter is
caught and degraded to the empty list (the `except InvalidObjectIdError: return []` branch). -/
def list (docs : List AttachmentDoc) (entity_id : Option String) : List AttachmentDoc :=
  match entity_id with
  | none => docs
  | some e =>
    match parseObjectId e with
    | none => []
    | some oid => docs.filter (fun d => d.entity_id == oid)

/-- `AttachmentRepo.count_by_entity_id`: `count_documents({"entity_id": CustomObjectId(e)})`.
The id conversion can raise `InvalidObjectIdError` for a malformed string. -/
def count_by_entity_id (docs : List AttachmentDoc) (entity_id : String) : Except APIError Nat :=
  match parseObjectId entity_id with
  | none => .error .invalidObjectId
  | some oid => .ok (docs.filter (fun d => d.entity_id == oid)).length

/-- `AttachmentRepo.update`: parse the id, fetch the stored document, run the duplicate
check only when the submitted `file_name` differs from the stored one (excluding the
record's own id), then `update_one({"_id": oid}, {"$set": attachment.model_dump()})` —
the `$set` of the full dump replaces every modelled field — and re-read. -/
def update (docs : List AttachmentDoc) (attachment_id : String) (attachment : AttachmentDoc) :
    Except APIError (List AttachmentDoc × AttachmentDoc) :=
  match parseObjectId attachment_id with
  | none => .error .invalidObjectId
  | some oid =>
    match findById docs oid with
    | none => .error .missingRecord
    | some stored =>
      if attachment.file_name != stored.file_name &&
          is_duplicate docs attachment.entity_id attachment.code (some oid) then
        .error .duplicateRecord
      else
        let docs' := docs.map (fun d => if d.id == oid then attachment else d)
        match findById docs' oid with
        | some d => .ok (docs', d)
        | none => .error .missingRecord

/-- `AttachmentRepo.delete`: parse the id, `delete_one({"_id": oid})`, and raise
`MissingRecordError` when `deleted_count == 0`. `delete_one` removes the first match. -/
def delete (docs : List AttachmentDoc) (attachment_id : String) :
    Except APIError (List AttachmentDoc) :=
  match parseObjectId attachment_id with
  | none => .error .invalidObjectId
  | some oid =>
    if docs.any (fun d => d.id == oid) then
      .ok (docs.eraseP (fun d => d.id == oid))
    else
      .error .missingRecord

/-- `AttachmentRepo.delete_by_entity_id`: `delete_many({"entity_id": oid})`; an invalid
`entity_id` is swallowed and treated as matching nothing. Never an error. -/
def delete_by_entity_id (docs : List AttachmentDoc) (entity_id : String) :
    List AttachmentDoc :=
  match parseObjectId entity_id with
  | none => docs
  | some oid => docs.filter (fun d => !(d.entity_id == oid))

end AttachmentRepo

/-! ## Image repository (`repositories/image.py`) -/

namespace ImageRepo

/-- `ImageRepo._is_duplicate`: same shape as the attachment version. -/
def is_duplicate (docs : List ImageDoc) (entity_id code : String)
    (image_id : Option String) : Bool :=
  docs.any (fun d => d.entity_id == entity_id && d.code == code && some d.id != image_id)

/-- `find_one({"_id": oid})` for an already-parsed id. -/
def findById (docs : List ImageDoc) (oid : String) : Option ImageDoc :=
  docs.find? (fun d => d.id == oid)

/-- `ImageRepo.get`. -/
def get (docs : List ImageDoc) (image_id : String) : Except APIError ImageDoc :=
  match parseObjectId image_id with
  | none => .error .invalidObjectId
  | some oid =>
    match findById docs oid with
    | some d => .ok d
    | none => .error .missingRecord

/-- `ImageRepo._count_by_entity_id`: `count_documents({"entity_id": e})` for an
already-parsed entity id. -/
def count_by_entity_id (docs : List ImageDoc) (entity_id : String) : Nat :=
  (docs.filter (fun d => d.entity_id == entity_id)).length

/-- `ImageRepo.create`: upload-limit check, duplicate pre-check, then `insert_one`
(PyMongo `DuplicateKeyError` on an `_id` collision) and the re-read `get`. -/
def create (cfg : Config) (docs : List ImageDoc) (image : ImageDoc) :
    Except APIError (List ImageDoc × ImageDoc) :=
  if cfg.image_upload_limit ≤ count_by_entity_id docs image.entity_id then
    .error .uploadLimitReached
  else if is_duplicate docs image.entity_id image.code none then
    .error .duplicateRecord
  else if docs.any (fun d => d.id == image.id) then
    .error .duplicateKey
  else
    let docs' := docs ++ [image]
    match findById docs' image.id with
    | some d => .ok (docs', d)
    | none => .error .missingRecord

/-- `ImageRepo.list`: filter conjunction over the optional `entity_id` and `primary`
filters; an invalid `entity_id` degrades to the empty list. -/
def list (docs : List ImageDoc) (entity_id : Option String) (primary : Option Bool) :
    List ImageDoc :=
  match entity_id with
  | none =>
    match primary with
    | none => docs
    | some p => docs.filter (fun d => d.primary == p)
  | some e =>
    match parseObjectId e with
    | none => []
    | some oid =>
      match primary with
      | none => docs.filter (fun d => d.entity_id == oid)
      | some p => docs.filter (fun d => d.entity_id == oid && d.primary == p)

/-- The first half of the `update_primary` bulk write:
`UpdateMany({"primary": True, "entity_id": e}, {"$set": {"primary": False}})`.
Only the `primary` field of the matching documents is written. -/
def clearPrimary (docs : List ImageDoc) (entity_id : String) : List ImageDoc :=
  docs.map (fun d =>
    if d.primary == true && d.entity_id == entity_id then { d with primary := false } else d)

/-- The single-document write `UpdateOne`/`update_one` with `{"$set": image.model_dump()}`:
the full dump overwrites every modelled field of the matching document. -/
def applyTargetUpdate (docs : List ImageDoc) (oid : String) (image : ImageDoc) :
    List ImageDoc :=
  docs.map (fun d => if d.id == oid then image else d)

/-- `ImageRepo.update`: parse the id, fetch the stored document, run the duplicate check
only when the submitted `file_name` differs from the stored one (excluding the record's
own id), then either the ordered bulk write (`UpdateMany` clearing `primary` on the
entity's images, followed by the target `UpdateOne`) when `update_primary` is set, or the
single `update_one` otherwise; finally the re-read `get`. -/
def update (docs : List ImageDoc) (image_id : String) (image : ImageDoc)
    (update_primary : Bool) : Except APIError (List ImageDoc × ImageDoc) :=
  match parseObjectId image_id with
  | none => .error .invalidObjectId
  | some oid =>
    match findById docs oid with
    | none => .error .missingRecord
    | some stored =>
      if image.file_name != stored.file_name &&
          is_duplicate docs image.entity_id image.code (some oid) then
        .error .duplicateRecord
      else
        let docs' :=
          if update_primary then
            applyTargetUpdate (clearPrimary docs image.entity_id) oid image
          else
            applyTargetUpdate docs oid image
        match findById docs' oid with
        | some d => .ok (docs', d)
        | none => .error .missingRecord

/-- `ImageRepo.delete`. -/
def delete (docs : List ImageDoc) (image_id : String) : Except APIError (List ImageDoc) :=
  match parseObjectId image_id with
  | none => .error .invalidObjectId
  | some oid =>
    if docs.any (fun d => d.id == oid) then
      .ok (docs.eraseP (fun d => d.id == oid))
    else
      .error .missingRecord

/-- `ImageRepo.delete_by_entity_id`: invalid ids are swallowed; never an error. -/
def delete_by_entity_id (docs : List ImageDoc) (entity_id : String) : List ImageDoc :=
  match parseObjectId entity_id with
  | none => docs
  | some oid => docs.filter (fun d => !(d.entity_id == oid))

end ImageRepo

/-! ## Uploaded files and the thumbnail generator (`core/image.py`) -/

/-- A FastAPI `UploadFile`: the declared file name and content type, the underlying byte
stream, and its current read position. -/
structure UploadFileState where
  filename : String
  content_type : Option String
  contents : List Nat
  pos : Nat
deriving Repr, DecidableEq

/-- `generate_thumbnail_base64_str`. Pillow decoding/re-encoding is a black box (spec §1):
`decode` stands for `Image.open` + `thumbnail` + webp `save` + base64-encode, reading the
stream from its current position; `none` models `UnidentifiedImageError`, raised as
`InvalidImageFileError`. After generating the thumbnail the stream is exhausted, and the
source then executes `uploaded_image_file.file.seek(0)` before returning. -/
def generate_thumbnail_base64_str (decode : List Nat → Option String)
    (uploaded_image_file : UploadFileState) : Except APIError (String × UploadFileState) :=
  match decode (uploaded_image_file.contents.drop uploaded_image_file.pos) with
  | none => .error .invalidImageFile
  | some thumbnail =>
    let exhausted := { uploaded_image_file with pos := uploaded_image_file.contents.length }
    .ok (thumbnail, { exhausted with pos := 0 })

/-! ## Wire schemas (`schemas/attachment.py`, `schemas/image.py`) -/

/-- `AttachmentPostSchema`. -/
structure AttachmentPostSchema where
  entity_id : String
  file_name : String
  title : Option String
  description : Option String
deriving Repr, DecidableEq

/-- `AttachmentPatchMetadataSchema`. The outer `Option` on `title`/`description` models
pydantic's set/unset distinction (`exclude_unset`): `none` means the field was not supplied,
`some v` that it was explicitly set to `v` (possibly null). An explicitly-null `file_name`
would fail `AttachmentIn` validation downstream and is modelled as unset. -/
structure AttachmentPatchMetadataSchema where
  title : Option (Option String)
  description : Option (Option String)
  file_name : Option String
deriving Repr, DecidableEq

/-- `ImagePostMetadataSchema` (the multipart form fields besides the binary file; note it
carries no `primary` flag). -/
structure ImagePostMetadataSchema where
  entity_id : String
  title : Option String
  description : Option String
deriving Repr, DecidableEq

/-- `ImagePatchMetadataSchema`; set/unset conventions as for the attachment patch. -/
structure ImagePatchMetadataSchema where
  title : Option (Option String)
  description : Option (Option String)
  file_name : Option String
  primary : Option Bool
deriving Repr, DecidableEq

/-! ## Object stores (`stores/attachment.py`, `stores/image.py`) -/

namespace AttachmentStore

/-- The object key computed by `AttachmentStore.create_presigned_post`:
`f"attachments/{attachment.entity_id}/{attachment_id}"`, built from the raw schema
`entity_id` string. The presigned-POST descriptor itself is opaque and recorded as an
`Event.presignedPostIssued`. -/
def objectKey (entity_id attachment_id : String) : String :=
  "attachments/" ++ entity_id ++ "/" ++ attachment_id

end AttachmentStore

namespace ImageStore

/-- `ImageStore.upload`: computes the object key
`f"images/{image_metadata.entity_id}/{image_id}"` and `upload_fileobj` reads the stream
from its current position. Returns the key and the uploaded bytes. -/
def upload (image_id : String) (image_metadata : ImagePostMetadataSchema)
    (upload_file : UploadFileState) : String × List Nat :=
  ("images/" ++ image_metadata.entity_id ++ "/" ++ image_id,
   upload_file.contents.drop upload_file.pos)

/-- `ImageStore.delete_many`: the sequence of `delete_objects` calls issued by the
`for i in range(0, len(object_keys), batch_size)` loop with `batch_size = 1000`; the call
for loop index `i` carries the slice `object_keys[i : i + 1000]`. -/
def delete_many (object_keys : List String) : List (List String) :=
  if h : object_keys = [] then []
  else object_keys.take 1000 :: delete_many (object_keys.drop 1000)
termination_by object_keys.length
decreasing_by
  simp only [List.length_drop]
  exact Nat.sub_lt (List.length_pos.mpr h) (by decide)

end ImageStore

/-! ## Services (`services/attachment.py`, `services/image.py`) -/

/-- Result of one service operation: the outcome, the collection state afterwards, and the
ordered list of external calls that were issued. -/
structure OpResult (α : Type) (σ : Type) where
  outcome : Except APIError α
  docs : σ
  events : List Event

instance (ε α : Type) [DecidableEq ε] [DecidableEq α] : DecidableEq (Except ε α) :=
  fun a b =>
    match a, b with
    | .ok x, .ok y => decidable_of_iff (x = y) ⟨fun h => by rw [h], fun h => by injection h⟩
    | .error x, .error y =>
      decidable_of_iff (x = y) ⟨fun h => by rw [h], fun h => by injection h⟩
    | .ok _, .error _ => isFalse (fun h => Except.noConfusion h)
    | .error _, .ok _ => isFalse (fun h => Except.noConfusion h)

instance (α σ : Type) [DecidableEq α] [DecidableEq σ] : DecidableEq (OpResult α σ) :=
  fun a b => by
    cases a; cases b
    rw [OpResult.mk.injEq]
    exact inferInstance

namespace AttachmentService

/-- `AttachmentService.create`. In source order: validate `entity_id`, enforce the upload
quota, check the file extension allow-list (`Path(file_name).suffix`, lower-cased, against
`config.attachment.allowed_file_extensions`), generate the id (`attachment_id`, passed in
here since `str(ObjectId())` is fresh randomness), issue the presigned POST at the derived
object key, build `AttachmentIn` (whose `CustomObjectIdField`s validate the ids) and insert
it via the repository. A repository failure does not roll the presigned POST back. -/
def create (cfg : Config) (docs : List AttachmentDoc) (attachment : AttachmentPostSchema)
    (attachment_id : String) : OpResult AttachmentDoc (List AttachmentDoc) :=
  match parseObjectId attachment.entity_id with
  | none => ⟨.error .invalidObjectId, docs, []⟩
  | some eid =>
    match AttachmentRepo.count_by_entity_id docs attachment.entity_id with
    | .error e => ⟨.error e, docs, []⟩
    | .ok n =>
      if cfg.attachment_upload_limit ≤ n then
        ⟨.error .uploadLimitReached, docs, []⟩
      else
        let file_extension := pathSuffix attachment.file_name
        if file_extension == "" ||
            !(cfg.attachment_allowed_file_extensions.contains (lowerString file_extension)) then
          ⟨.error .unsupportedFileExtension, docs, []⟩
        else
          let object_key := AttachmentStore.objectKey attachment.entity_id attachment_id
          match parseObjectId attachment_id with
          | none => ⟨.error .invalidObjectId, docs, [.presignedPostIssued object_key]⟩
          | some aid =>
            let doc : AttachmentDoc :=
              { id := aid, entity_id := eid,
                file_name := attachment.file_name,
                code := generate_code attachment.file_name,
                object_key := object_key,
                title := attachment.title, description := attachment.description }
            match AttachmentRepo.create docs doc with
            | .error e => ⟨.error e, docs, [.presignedPostIssued object_key]⟩
            | .ok (docs', out) =>
              ⟨.ok out, docs', [.presignedPostIssued object_key, .docInserted doc.id]⟩

/-- The merged `AttachmentIn` built by `AttachmentService.update`:
`{**stored_attachment.model_dump(), **attachment.model_dump(exclude_unset=True)}`. The
`code` field tracks the merged file name (see `generate_code`). -/
def mergePatch (stored : AttachmentDoc) (attachment : AttachmentPatchMetadataSchema) :
    AttachmentDoc :=
  let file_name := attachment.file_name.getD stored.file_name
  { stored with
    title := match attachment.title with | some t => t | none => stored.title
    description := match attachment.description with | some t => t | none => stored.description
    file_name := file_name
    code := generate_code file_name }

/-- `AttachmentService.update`: fetch the stored record; when a new `file_name` is supplied
compare `mimetypes.guess_type` of the new and stored names and fail with
`FileTypeMismatchException` when they differ; then the repository update on the merged
document. -/
def update (docs : List AttachmentDoc) (attachment_id : String)
    (attachment : AttachmentPatchMetadataSchema) : OpResult AttachmentDoc (List AttachmentDoc) :=
  match AttachmentRepo.get docs attachment_id with
  | .error e => ⟨.error e, docs, []⟩
  | .ok stored_attachment =>
    let type_ok :=
      match attachment.file_name with
      | none => true
      | some fn => mimetypesGuessType fn == mimetypesGuessType stored_attachment.file_name
    if !type_ok then ⟨.error .fileTypeMismatch, docs, []⟩
    else
      match AttachmentRepo.update docs attachment_id (mergePatch stored_attachment attachment) with
      | .error e => ⟨.error e, docs, []⟩
      | .ok (docs', out) => ⟨.ok out, docs', [.docUpdated out.id]⟩

/-- `AttachmentService.delete`: fetch the record for its `object_key`, delete from the
object store first (`AttachmentStore.delete` is a plain `s3_client.delete_object` call,
mirrored by the emitted event), then delete the metadata row. -/
def delete (docs : List AttachmentDoc) (attachment_id : String) :
    OpResult Unit (List AttachmentDoc) :=
  match AttachmentRepo.get docs attachment_id with
  | .error e => ⟨.error e, docs, []⟩
  | .ok stored_attachment =>
    match AttachmentRepo.delete docs attachment_id with
    | .error e => ⟨.error e, docs, [.objectDeleted stored_attachment.object_key]⟩
    | .ok docs' =>
      ⟨.ok (), docs',
       [.objectDeleted stored_attachment.object_key, .docDeleted stored_attachment.id]⟩

end AttachmentService

namespace ImageService

/-- `ImageService.create`. In source order: validate `entity_id`, enforce the upload quota,
compare `mimetypes.guess_type(upload_file.filename)[0]` with the declared content type
(`InvalidFilenameExtension`, i.e. the file-type-mismatch error, on inequality), generate the
id, generate the thumbnail, upload the full-size image, build `ImageIn` and insert it via
the repository (which re-checks the quota and the duplicate). `primary := false` is
modelled from the spec: the POST schema carries no primary flag and the `ImageIn` field
declaration is absent from `src/`. -/
def create (cfg : Config) (docs : List ImageDoc) (image_metadata : ImagePostMetadataSchema)
    (upload_file : UploadFileState) (image_id : String)
    (decode : List Nat → Option String) : OpResult ImageDoc (List ImageDoc) :=
  match parseObjectId image_metadata.entity_id with
  | none => ⟨.error .invalidObjectId, docs, []⟩
  | some eid =>
    if cfg.image_upload_limit ≤ ImageRepo.count_by_entity_id docs eid then
      ⟨.error .uploadLimitReached, docs, []⟩
    else if mimetypesGuessType upload_file.filename != upload_file.content_type then
      ⟨.error .fileTypeMismatch, docs, []⟩
    else
      match generate_thumbnail_base64_str decode upload_file with
      | .error e => ⟨.error e, docs, []⟩
      | .ok (thumbnail_base64, upload_file') =>
        let uploaded := ImageStore.upload image_id image_metadata upload_file'
        let events := [Event.thumbnailGenerated, Event.objectUploaded uploaded.1 uploaded.2]
        match parseObjectId image_id with
        | none => ⟨.error .invalidObjectId, docs, events⟩
        | some iid =>
          let doc : ImageDoc :=
            { id := iid, entity_id := eid,
              file_name := upload_file.filename,
              code := generate_code upload_file.filename,
              object_key := uploaded.1,
              title := image_metadata.title, description := image_metadata.description,
              primary := false,
              thumbnail_base64 := thumbnail_base64 }
          match ImageRepo.create cfg docs doc with
          | .error e => ⟨.error e, docs, events⟩
          | .ok (docs', out) => ⟨.ok out, docs', events ++ [.docInserted doc.id]⟩

/-- The merged `ImageIn` built by `ImageService.update`:
`{**stored_image.model_dump(), **image.model_dump(exclude_unset=True)}`. -/
def mergePatch (stored : ImageDoc) (image : ImagePatchMetadataSchema) : ImageDoc :=
  let file_name := image.file_name.getD stored.file_name
  { stored with
    title := match image.title with | some t => t | none => stored.title
    description := match image.description with | some t => t | none => stored.description
    file_name := file_name
    code := generate_code file_name
    primary := image.primary.getD stored.primary }

/-- The `update_primary` flag computed by `ImageService.update`:
`image.primary is not None and image.primary is True and stored_image.primary is False`. -/
def updatePrimaryFlag (image : ImagePatchMetadataSchema) (stored : ImageDoc) : Bool :=
  image.primary == some true && stored.primary == false

/-- `ImageService.update`: fetch the stored record; when a new `file_name` is supplied
compare `mimetypes.guess_type` of the new and stored names (the source compares the full
`(type, encoding)` tuples; encodings are not modelled, see `mimetypesGuessType`); then the
repository update on the merged document, passing the `update_primary` transition flag. -/
def update (docs : List ImageDoc) (image_id : String) (image : ImagePatchMetadataSchema) :
    OpResult ImageDoc (List ImageDoc) :=
  match ImageRepo.get docs image_id with
  | .error e => ⟨.error e, docs, []⟩
  | .ok stored_image =>
    let type_ok :=
      match image.file_name with
      | none => true
      | some fn => mimetypesGuessType fn == mimetypesGuessType stored_image.file_name
    if !type_ok then ⟨.error .fileTypeMismatch, docs, []⟩
    else
      match ImageRepo.update docs image_id (mergePatch stored_image image)
          (updatePrimaryFlag image stored_image) with
      | .error e => ⟨.error e, docs, []⟩
      | .ok (docs', out) => ⟨.ok out, docs', [.docUpdated out.id]⟩

/-- `ImageService.delete`: fetch the record for its `object_key`, delete from the object
store first, then delete the metadata row. -/
def delete (docs : List ImageDoc) (image_id : String) : OpResult Unit (List ImageDoc) :=
  match ImageRepo.get docs image_id with
  | .error e => ⟨.error e, docs, []⟩
  | .ok stored_image =>
    match ImageRepo.delete docs image_id with
    | .error e => ⟨.error e, docs, [.objectDeleted stored_image.object_key]⟩
    | .ok docs' =>
      ⟨.ok (), docs', [.objectDeleted stored_image.object_key, .docDeleted stored_image.id]⟩

end ImageService

/-! ## Primary-exclusivity invariant (spec §4.4) -/

/-- Number of images of entity `e` whose `primary` flag is set. -/
def countPrimary (docs : List ImageDoc) (e : String) : Nat :=
  (docs.filter (fun d => d.entity_id == e && d.primary)).length

/-- The image-collection states reachable from the empty collection by any sequence of
service-level image creates and updates (with arbitrary arguments; a failed call leaves
the collection unchanged, which the `.docs` projection reflects). The ordered bulk write
of `ImageRepo.update` is applied as one state transition, the atomicity the spec assigns
to it. -/
inductive ImageReachable (cfg : Config) : List ImageDoc → Prop where
  | empty : ImageReachable cfg []
  | create (docs : List ImageDoc) (image_metadata : ImagePostMetadataSchema)
      (upload_file : UploadFileState) (image_id : String)
      (decode : List Nat → Option String) :
      ImageReachable cfg docs →
      ImageReachable cfg
        (ImageService.create cfg docs image_metadata upload_file image_id decode).docs
  | update (docs : List ImageDoc) (image_id : String)
      (image : ImagePatchMetadataSchema) :
      ImageReachable cfg docs →
      ImageReachable cfg (ImageService.update docs image_id image).docs

/-! ## Theorems -/

/-- Unfolding equation for `ImageStore.delete_many`. -/
theorem ImageStore.delete_many_eq (object_keys : List String) :
    ImageStore.delete_many object_keys =
      if object_keys = [] then []
      else object_keys.take 1000 :: ImageStore.delete_many (object_keys.drop 1000) := by
  conv_lhs => rw [ImageStore.delete_many.eq_def]
  by_cases h : object_keys = []
  · rw [dif_pos h, if_pos h]
  · rw [dif_neg h, if_neg h]

/-- Concatenating the batches recovers the original key list. -/
theorem ImageStore.delete_many_flatten (object_keys : List String) :
    (ImageStore.delete_many object_keys).flatten = object_keys := by
  rw [ImageStore.delete_many_eq]
  by_cases h : object_keys = []
  · simp [h]
  · simp only [if_neg h, List.flatten_cons]
    rw [ImageStore.delete_many_flatten (object_keys.drop 1000)]
    exact List.take_append_drop 1000 object_keys
termination_by object_keys.length
decreasing_by
  simp only [List.length_drop]
  exact Nat.sub_lt (List.length_pos.mpr h) (by decide)

/-- Every batch is non-empty and holds at most 1000 keys. -/
theorem ImageStore.delete_many_batch_size (object_keys : List String) :
    ∀ b ∈ ImageStore.delete_many object_keys, b.length ≤ 1000 ∧ b ≠ [] := by
  intro b hb
  rw [ImageStore.delete_many_eq] at hb
  by_cases h : object_keys = []
  · simp [h] at hb
  · simp only [if_neg h, List.mem_cons] at hb
    rcases hb with hb | hb
    · subst hb
      refine ⟨List.length_take_le 1000 object_keys, ?_⟩
      intro hnil
      rcases List.take_eq_nil_iff.mp hnil with h0 | h0
      · exact absurd h0 (by decide)
      · exact h h0
    · exact ImageStore.delete_many_batch_size (object_keys.drop 1000) b hb
termination_by object_keys.length
decreasing_by
  simp only [List.length_drop]
  exact Nat.sub_lt (List.length_pos.mpr h) (by decide)

/-- C8: for every list of object keys (including the empty list), `delete_many` issues
object-store delete calls in batches of at most 1000 keys each, every supplied key appears
in exactly one batch in the original order (concatenating the batches gives back exactly
the input list), and the empty list results in zero calls and no error (`delete_many` is a
total function returning the empty call sequence). -/
theorem C8_delete_many_batching :
    (∀ object_keys : List String,
      (ImageStore.delete_many object_keys).flatten = object_keys ∧
      ∀ b ∈ ImageStore.delete_many object_keys, b.length ≤ 1000 ∧ b ≠ []) ∧
    ImageStore.delete_many [] = [] := by
  refine ⟨fun object_keys => ⟨ImageStore.delete_many_flatten object_keys,
    ImageStore.delete_many_batch_size object_keys⟩, ?_⟩
  rw [ImageStore.delete_many_eq]
  simp

/-- Witness for C8 at the concrete key list `["k1", "k2"]`: it forms a single batch that is
within the size limit, in order. -/
theorem C8_delete_many_batching_witness :
    (ImageStore.delete_many ["k1", "k2"]).flatten = ["k1", "k2"] ∧
    (["k1", "k2"] : List String).length ≤ 1000 ∧ (["k1", "k2"] : List String) ≠ [] := by
  have hmem : ["k1", "k2"] ∈ ImageStore.delete_many ["k1", "k2"] := by
    rw [ImageStore.delete_many_eq, if_neg (by decide),
      List.take_of_length_le (by decide), List.drop_eq_nil_of_le (by decide)]
    exact List.mem_cons_self _ _
  exact ⟨(C8_delete_many_batching.1 ["k1", "k2"]).1,
    (C8_delete_many_batching.1 ["k1", "k2"]).2 ["k1", "k2"] hmem⟩

/-- `find?` over an appended singleton whose element matches, when nothing earlier matches. -/
theorem find?_append_singleton {α : Type} (p : α → Bool) (l : List α) (a : α)
    (h : l.any p = false) (ha : p a = true) : (l ++ [a]).find? p = some a := by
  induction l with
  | nil => simpa using List.find?_cons_of_pos ([] : List α) ha
  | cons x xs ih =>
    simp only [List.any_cons, Bool.or_eq_false_iff] at h
    rw [List.cons_append, List.find?_cons_of_neg _ (by simp [h.1])]
    exact ih h.2

/-- A successful `AttachmentRepo.create` appends the document and returns it unchanged. -/
theorem AttachmentRepo.create_ok {docs : List AttachmentDoc} {a : AttachmentDoc}
    {docs' : List AttachmentDoc} {out : AttachmentDoc}
    (h : AttachmentRepo.create docs a = .ok (docs', out)) :
    docs' = docs ++ [a] ∧ out = a := by
  unfold AttachmentRepo.create at h
  by_cases h1 : AttachmentRepo.is_duplicate docs a.entity_id a.code none
  · rw [if_pos h1] at h; exact absurd h (by simp)
  · rw [if_neg h1] at h
    by_cases h2 : docs.any (fun d => d.id == a.id)
    · rw [if_pos h2] at h; exact absurd h (by simp)
    · rw [if_neg h2] at h
      have hf : AttachmentRepo.findById (docs ++ [a]) a.id = some a :=
        find?_append_singleton _ docs a (Bool.eq_false_iff.mpr h2) (by simp)
      rw [AttachmentRepo.findById] at hf
      simp only [AttachmentRepo.findById, hf] at h
      cases h
      exact ⟨rfl, rfl⟩

/-- A successful `ImageRepo.create` appends the document and returns it unchanged. -/
theorem ImageRepo.create_ok_image {cfg : Config} {docs : List ImageDoc} {a : ImageDoc}
    {docs' : List ImageDoc} {out : ImageDoc}
    (h : ImageRepo.create cfg docs a = .ok (docs', out)) :
    docs' = docs ++ [a] ∧ out = a := by
  unfold ImageRepo.create at h
  by_cases h0 : cfg.image_upload_limit ≤ ImageRepo.count_by_entity_id docs a.entity_id
  · rw [if_pos h0] at h; exact absurd h (by simp)
  · rw [if_neg h0] at h
    by_cases h1 : ImageRepo.is_duplicate docs a.entity_id a.code none
    · rw [if_pos h1] at h; exact absurd h (by simp)
    · rw [if_neg h1] at h
      by_cases h2 : docs.any (fun d => d.id == a.id)
      · rw [if_pos h2] at h; exact absurd h (by simp)
      · rw [if_neg h2] at h
        have hf : ImageRepo.findById (docs ++ [a]) a.id = some a :=
          find?_append_singleton _ docs a (Bool.eq_false_iff.mpr h2) (by simp)
        rw [ImageRepo.findById] at hf
        simp only [ImageRepo.findById, hf] at h
        cases h
        exact ⟨rfl, rfl⟩

/-- C4: for every successfully created attachment with generated id X and entity id E, the
persisted `object_key` is exactly the string `attachments/E/X`; for every successfully
created image it is exactly `images/E/X`. -/
theorem C4_object_key_layout :
    (∀ (cfg : Config) (docs : List AttachmentDoc) (attachment : AttachmentPostSchema)
        (attachment_id : String) (out : AttachmentDoc),
      (AttachmentService.create cfg docs attachment attachment_id).outcome = .ok out →
      out.object_key = "attachments/" ++ attachment.entity_id ++ "/" ++ attachment_id) ∧
    (∀ (cfg : Config) (docs : List ImageDoc) (image_metadata : ImagePostMetadataSchema)
        (upload_file : UploadFileState) (image_id : String)
        (decode : List Nat → Option String) (out : ImageDoc),
      (ImageService.create cfg docs image_metadata upload_file image_id decode).outcome =
        .ok out →
      out.object_key = "images/" ++ image_metadata.entity_id ++ "/" ++ image_id) := by
  constructor
  · intro cfg docs attachment attachment_id out h
    simp only [AttachmentService.create] at h
    split at h
    · exact absurd h (by simp)
    · split at h
      · exact absurd h (by simp)
      · split at h
        · exact absurd h (by simp)
        · split at h
          · exact absurd h (by simp)
          · split at h
            · exact absurd h (by simp)
            · split at h
              · exact absurd h (by simp)
              · rename_i hcreate
                cases h
                exact ((AttachmentRepo.create_ok hcreate).2).symm ▸ rfl
  · intro cfg docs image_metadata upload_file image_id decode out h
    simp only [ImageService.create] at h
    split at h
    · exact absurd h (by simp)
    · split at h
      · exact absurd h (by simp)
      · split at h
        · exact absurd h (by simp)
        · split at h
          · exact absurd h (by simp)
          · split at h
            · exact absurd h (by simp)
            · split at h
              · exact absurd h (by simp)
              · rename_i hcreate
                cases h
                exact ((ImageRepo.create_ok_image hcreate).2).symm ▸ rfl

/-- Witness for C4: a concrete attachment create whose stored `object_key` is the derived
string. -/
theorem C4_object_key_layout_witness :
    (AttachmentService.create ⟨1, 1, [".txt"], 100⟩ []
        ⟨"bbbbbbbbbbbbbbbbbbbbbbbb", "report.txt", none, none⟩
        "aaaaaaaaaaaaaaaaaaaaaaaa").outcome =
      .ok ⟨"aaaaaaaaaaaaaaaaaaaaaaaa", "bbbbbbbbbbbbbbbbbbbbbbbb", "report.txt", "report.txt",
        "attachments/bbbbbbbbbbbbbbbbbbbbbbbb/aaaaaaaaaaaaaaaaaaaaaaaa", none, none⟩ ∧
    ("attachments/bbbbbbbbbbbbbbbbbbbbbbbb/aaaaaaaaaaaaaaaaaaaaaaaa" : String) =
      "attachments/" ++ "bbbbbbbbbbbbbbbbbbbbbbbb" ++ "/" ++ "aaaaaaaaaaaaaaaaaaaaaaaa" :=
  ⟨by decide, C4_object_key_layout.1 ⟨1, 1, [".txt"], 100⟩ []
    ⟨"bbbbbbbbbbbbbbbbbbbbbbbb", "report.txt", none, none⟩
    "aaaaaaaaaaaaaaaaaaaaaaaa"
    ⟨"aaaaaaaaaaaaaaaaaaaaaaaa", "bbbbbbbbbbbbbbbbbbbbbbbb", "report.txt", "report.txt",
      "attachments/bbbbbbbbbbbbbbbbbbbbbbbb/aaaaaaaaaaaaaaaaaaaaaaaa", none, none⟩
    (by decide)⟩

/-- A successful thumbnail generation returns the file with its position reset to 0 and its
contents untouched. -/
theorem generate_thumbnail_ok {decode : List Nat → Option String} {f : UploadFileState}
    {thumbnail : String} {f' : UploadFileState}
    (h : generate_thumbnail_base64_str decode f = .ok (thumbnail, f')) :
    f' = { f with pos := 0 } := by
  unfold generate_thumbnail_base64_str at h
  split at h
  · exact absurd h (by simp)
  · cases h; rfl

/-- C10: on every successful call, `generate_thumbnail_base64_str` leaves the uploaded
file's stream position reset to 0 (with the contents unchanged) before returning, so the
full-size upload performed immediately afterwards in `ImageService.create` reads the image
bytes from the start: any bytes recorded by an upload event of `ImageService.create` are
the file's full contents. -/
theorem C10_thumbnail_stream_reset :
    (∀ (decode : List Nat → Option String) (f : UploadFileState) (thumbnail : String)
        (f' : UploadFileState),
      generate_thumbnail_base64_str decode f = .ok (thumbnail, f') →
      f'.pos = 0 ∧ f'.contents = f.contents) ∧
    (∀ (cfg : Config) (docs : List ImageDoc) (image_metadata : ImagePostMetadataSchema)
        (upload_file : UploadFileState) (image_id : String)
        (decode : List Nat → Option String) (object_key : String) (bytes : List Nat),
      Event.objectUploaded object_key bytes ∈
        (ImageService.create cfg docs image_metadata upload_file image_id decode).events →
      bytes = upload_file.contents) := by
  constructor
  · intro decode f thumbnail f' h
    rw [generate_thumbnail_ok h]
    exact ⟨rfl, rfl⟩
  · intro cfg docs image_metadata upload_file image_id decode object_key bytes hmem
    simp only [ImageService.create, ImageStore.upload] at hmem
    split at hmem
    · simp at hmem
    · split at hmem
      · simp at hmem
      · split at hmem
        · simp at hmem
        · split at hmem
          · simp at hmem
          · rename_i hthumb
            have hf : _ = { upload_file with pos := 0 } := generate_thumbnail_ok hthumb
            subst hf
            split at hmem
            · simp only [List.mem_cons] at hmem
              rcases hmem with hmem | hmem | hmem
              · exact absurd hmem (by simp)
              · cases hmem; exact List.drop_zero _
              · simp at hmem
            · split at hmem
              · simp only [List.mem_cons] at hmem
                rcases hmem with hmem | hmem | hmem
                · exact absurd hmem (by simp)
                · cases hmem; exact List.drop_zero _
                · simp at hmem
              · simp only [List.mem_append, List.mem_cons] at hmem
                rcases hmem with (hmem | hmem | hmem) | hmem
                · exact absurd hmem (by simp)
                · cases hmem; exact List.drop_zero _
                · simp at hmem
                · simp at hmem

/-- Witness for C10: a concrete thumbnail generation that succeeds and leaves the stream
at position 0, and a concrete image create whose uploaded bytes are the full contents. -/
theorem C10_thumbnail_stream_reset_witness :
    ((⟨"photo.png", some "image/png", [7, 8, 9], 0⟩ : UploadFileState).pos = 0 ∧
      (⟨"photo.png", some "image/png", [7, 8, 9], 0⟩ : UploadFileState).contents =
        (⟨"photo.png", some "image/png", [7, 8, 9], 2⟩ : UploadFileState).contents) ∧
    ([7, 8, 9] : List Nat) =
      (⟨"photo.png", some "image/png", [7, 8, 9], 2⟩ : UploadFileState).contents :=
  ⟨C10_thumbnail_stream_reset.1 (fun _ => some "thumb")
      ⟨"photo.png", some "image/png", [7, 8, 9], 2⟩ "thumb"
      ⟨"photo.png", some "image/png", [7, 8, 9], 0⟩ (by decide),
   C10_thumbnail_stream_reset.2 ⟨1, 1, [".txt"], 100⟩ []
      ⟨"bbbbbbbbbbbbbbbbbbbbbbbb", none, none⟩
      ⟨"photo.png", some "image/png", [7, 8, 9], 2⟩ "aaaaaaaaaaaaaaaaaaaaaaaa"
      (fun _ => some "thumb")
      "images/bbbbbbbbbbbbbbbbbbbbbbbb/aaaaaaaaaaaaaaaaaaaaaaaa" [7, 8, 9] (by decide)⟩

/-- C5: for every syntactically invalid `entity_id` filter value, the repository list
operation (attachments and images) returns the empty list — and, being a total function,
never raises (the source catches `InvalidObjectIdError` in exactly this case); for a
well-formed `entity_id` or an absent filter, list returns the records matching the
conjunction of whichever optional filters were supplied. -/
theorem C5_list_filter_semantics :
    (∀ (docs : List AttachmentDoc) (e : String), parseObjectId e = none →
      AttachmentRepo.list docs (some e) = []) ∧
    (∀ (docs : List ImageDoc) (e : String) (primary : Option Bool), parseObjectId e = none →
      ImageRepo.list docs (some e) primary = []) ∧
    (∀ docs : List AttachmentDoc, AttachmentRepo.list docs none = docs) ∧
    (∀ (docs : List AttachmentDoc) (e oid : String), parseObjectId e = some oid →
      AttachmentRepo.list docs (some e) = docs.filter (fun d => d.entity_id == oid)) ∧
    (∀ docs : List ImageDoc, ImageRepo.list docs none none = docs) ∧
    (∀ (docs : List ImageDoc) (p : Bool),
      ImageRepo.list docs none (some p) = docs.filter (fun d => d.primary == p)) ∧
    (∀ (docs : List ImageDoc) (e oid : String), parseObjectId e = some oid →
      ImageRepo.list docs (some e) none = docs.filter (fun d => d.entity_id == oid)) ∧
    (∀ (docs : List ImageDoc) (e oid : String) (p : Bool), parseObjectId e = some oid →
      ImageRepo.list docs (some e) (some p) =
        docs.filter (fun d => d.entity_id == oid && d.primary == p)) := by
  refine ⟨?_, ?_, ?_, ?_, ?_, ?_, ?_, ?_⟩
  · intro docs e h
    simp only [AttachmentRepo.list, h]
  · intro docs e primary h
    simp only [ImageRepo.list, h]
  · intro docs
    simp only [AttachmentRepo.list]
  · intro docs e oid h
    simp only [AttachmentRepo.list, h]
  · intro docs
    simp only [ImageRepo.list]
  · intro docs p
    simp only [ImageRepo.list]
  · intro docs e oid h
    simp only [ImageRepo.list, h]
  · intro docs e oid p h
    simp only [ImageRepo.list, h]

/-- Witness for C5: the attachment and image lists both return `[]` for the literal invalid
filter value `"not-a-valid-id"` on a non-empty collection, and the valid-filter conjunction
holds on a concrete two-document collection. -/
theorem C5_list_filter_semantics_witness :
    AttachmentRepo.list
        [⟨"aaaaaaaaaaaaaaaaaaaaaaaa", "bbbbbbbbbbbbbbbbbbbbbbbb", "report.txt", "report.txt",
          "attachments/bbbbbbbbbbbbbbbbbbbbbbbb/aaaaaaaaaaaaaaaaaaaaaaaa", none, none⟩]
        (some "not-a-valid-id") = [] ∧
    ImageRepo.list
        [⟨"aaaaaaaaaaaaaaaaaaaaaaaa", "bbbbbbbbbbbbbbbbbbbbbbbb", "photo.png", "photo.png",
          "images/bbbbbbbbbbbbbbbbbbbbbbbb/aaaaaaaaaaaaaaaaaaaaaaaa", none, none, true, "t"⟩,
         ⟨"cccccccccccccccccccccccc", "dddddddddddddddddddddddd", "photo.png", "photo.png",
          "images/dddddddddddddddddddddddd/cccccccccccccccccccccccc", none, none, false, "t"⟩]
        (some "not-a-valid-id") (some true) = [] ∧
    ImageRepo.list
        [⟨"aaaaaaaaaaaaaaaaaaaaaaaa", "bbbbbbbbbbbbbbbbbbbbbbbb", "photo.png", "photo.png",
          "images/bbbbbbbbbbbbbbbbbbbbbbbb/aaaaaaaaaaaaaaaaaaaaaaaa", none, none, true, "t"⟩,
         ⟨"cccccccccccccccccccccccc", "dddddddddddddddddddddddd", "photo.png", "photo.png",
          "images/dddddddddddddddddddddddd/cccccccccccccccccccccccc", none, none, false, "t"⟩]
        (some "BBBBBBBBBBBBBBBBBBBBBBBB") (some true) =
      [⟨"aaaaaaaaaaaaaaaaaaaaaaaa", "bbbbbbbbbbbbbbbbbbbbbbbb", "photo.png", "photo.png",
        "images/bbbbbbbbbbbbbbbbbbbbbbbb/aaaaaaaaaaaaaaaaaaaaaaaa", none, none, true, "t"⟩] := by
  refine ⟨C5_list_filter_semantics.1 _ "not-a-valid-id" (by decide),
    C5_list_filter_semantics.2.1 _ "not-a-valid-id" (some true) (by decide), ?_⟩
  rw [C5_list_filter_semantics.2.2.2.2.2.2.2 _ "BBBBBBBBBBBBBBBBBBBBBBBB"
    "bbbbbbbbbbbbbbbbbbbbbbbb" true (by decide)]
  decide

/-- When at most one element satisfies `p`, erasing the first match leaves no match. -/
theorem find?_eraseP_eq_none {α : Type} (p : α → Bool) (l : List α)
    (huniq : (l.filter p).length ≤ 1) : (l.eraseP p).find? p = none := by
  induction l with
  | nil => simp
  | cons x xs ih =>
    by_cases hx : p x
    · rw [List.eraseP_cons_of_pos hx]
      rw [List.filter_cons_of_pos hx] at huniq
      have hnil : xs.filter p = [] := by
        have : (xs.filter p).length = 0 := by
          simpa using Nat.le_of_succ_le_succ huniq
        exact List.length_eq_zero.mp this
      rw [List.find?_eq_none]
      intro a ha
      have := List.filter_eq_nil_iff.mp hnil a ha
      simpa using this
    · rw [List.eraseP_cons_of_neg hx, List.find?_cons_of_neg _ hx]
      rw [List.filter_cons_of_neg hx] at huniq
      exact ih huniq

/-- Under distinct keys, at most one element carries any given key. -/
theorem filter_key_length_le_one {α : Type} (key : α → String) (l : List α) (oid : String)
    (h : (l.map key).Nodup) : (l.filter (fun d => key d == oid)).length ≤ 1 := by
  induction l with
  | nil => simp
  | cons x xs ih =>
    simp only [List.map_cons, List.nodup_cons] at h
    by_cases hx : (key x == oid) = true
    · rw [List.filter_cons, if_pos hx]
      have hnil : xs.filter (fun d => key d == oid) = [] := by
        rw [List.filter_eq_nil_iff]
        intro a ha hk
        exact h.1 (by
          have h1 : key x = oid := by simpa using hx
          have h2 : key a = oid := by simpa using hk
          rw [h1, ← h2]
          exact List.mem_map_of_mem key ha)
      simp [hnil]
    · rw [List.filter_cons, if_neg hx]
      exact ih h.2

/-- Decomposition of a successful `AttachmentRepo.get`. -/
theorem AttachmentRepo.get_ok {docs : List AttachmentDoc} {attachment_id : String}
    {stored : AttachmentDoc} (h : AttachmentRepo.get docs attachment_id = .ok stored) :
    ∃ oid, parseObjectId attachment_id = some oid ∧
      AttachmentRepo.findById docs oid = some stored := by
  unfold AttachmentRepo.get at h
  split at h
  · exact absurd h (by simp)
  · rename_i oid hoid
    split at h
    · rename_i d hd
      cases h
      exact ⟨oid, hoid, hd⟩
    · exact absurd h (by simp)

/-- Decomposition of a successful `ImageRepo.get`. -/
theorem ImageRepo.get_ok_image {docs : List ImageDoc} {image_id : String}
    {stored : ImageDoc} (h : ImageRepo.get docs image_id = .ok stored) :
    ∃ oid, parseObjectId image_id = some oid ∧
      ImageRepo.findById docs oid = some stored := by
  unfold ImageRepo.get at h
  split at h
  · exact absurd h (by simp)
  · rename_i oid hoid
    split at h
    · rename_i d hd
      cases h
      exact ⟨oid, hoid, hd⟩
    · exact absurd h (by simp)

/-- C7: for every existing record (attachment or image), the service delete first fetches
the record, then deletes the object-store object, and only afterwards deletes the metadata
row — the emitted call sequence is exactly object-store delete followed by metadata delete —
and a subsequent `get` of the same id fails with `MissingRecord`. (Distinct stored `_id`s,
guaranteed by the collection's unique index, are assumed.) -/
theorem C7_delete_ordering :
    (∀ (docs : List AttachmentDoc) (attachment_id : String) (stored : AttachmentDoc),
      AttachmentRepo.get docs attachment_id = .ok stored →
      (docs.map (fun d => d.id)).Nodup →
      (AttachmentService.delete docs attachment_id).outcome = .ok () ∧
      (AttachmentService.delete docs attachment_id).events =
        [.objectDeleted stored.object_key, .docDeleted stored.id] ∧
      AttachmentRepo.get (AttachmentService.delete docs attachment_id).docs attachment_id =
        .error .missingRecord) ∧
    (∀ (docs : List ImageDoc) (image_id : String) (stored : ImageDoc),
      ImageRepo.get docs image_id = .ok stored →
      (docs.map (fun d => d.id)).Nodup →
      (ImageService.delete docs image_id).outcome = .ok () ∧
      (ImageService.delete docs image_id).events =
        [.objectDeleted stored.object_key, .docDeleted stored.id] ∧
      ImageRepo.get (ImageService.delete docs image_id).docs image_id =
        .error .missingRecord) := by
  constructor
  · intro docs attachment_id stored hget hnd
    obtain ⟨oid, hoid, hfind⟩ := AttachmentRepo.get_ok hget
    rw [AttachmentRepo.findById] at hfind
    have hmem : stored ∈ docs := List.mem_of_find?_eq_some hfind
    have hp := List.find?_some hfind
    have hany : docs.any (fun d => d.id == oid) = true :=
      List.any_eq_true.mpr ⟨stored, hmem, hp⟩
    have hdel : AttachmentRepo.delete docs attachment_id =
        .ok (docs.eraseP (fun d => d.id == oid)) := by
      unfold AttachmentRepo.delete
      simp only [hoid]
      rw [if_pos hany]
    have hserv : AttachmentService.delete docs attachment_id =
        ⟨.ok (), docs.eraseP (fun d => d.id == oid),
         [.objectDeleted stored.object_key, .docDeleted stored.id]⟩ := by
      unfold AttachmentService.delete
      rw [hget, hdel]
    refine ⟨by rw [hserv], by rw [hserv], ?_⟩
    rw [hserv]
    unfold AttachmentRepo.get
    rw [hoid]
    have hnone : AttachmentRepo.findById (docs.eraseP (fun d => d.id == oid)) oid = none :=
      find?_eraseP_eq_none _ _ (filter_key_length_le_one (fun d => d.id) docs oid hnd)
    rw [AttachmentRepo.findById] at hnone
    simp only [AttachmentRepo.findById, hnone]
  · intro docs image_id stored hget hnd
    obtain ⟨oid, hoid, hfind⟩ := ImageRepo.get_ok_image hget
    rw [ImageRepo.findById] at hfind
    have hmem : stored ∈ docs := List.mem_of_find?_eq_some hfind
    have hp := List.find?_some hfind
    have hany : docs.any (fun d => d.id == oid) = true :=
      List.any_eq_true.mpr ⟨stored, hmem, hp⟩
    have hdel : ImageRepo.delete docs image_id =
        .ok (docs.eraseP (fun d => d.id == oid)) := by
      unfold ImageRepo.delete
      simp only [hoid]
      rw [if_pos hany]
    have hserv : ImageService.delete docs image_id =
        ⟨.ok (), docs.eraseP (fun d => d.id == oid),
         [.objectDeleted stored.object_key, .docDeleted stored.id]⟩ := by
      unfold ImageService.delete
      rw [hget, hdel]
    refine ⟨by rw [hserv], by rw [hserv], ?_⟩
    rw [hserv]
    unfold ImageRepo.get
    rw [hoid]
    have hnone : ImageRepo.findById (docs.eraseP (fun d => d.id == oid)) oid = none :=
      find?_eraseP_eq_none _ _ (filter_key_length_le_one (fun d => d.id) docs oid hnd)
    rw [ImageRepo.findById] at hnone
    simp only [ImageRepo.findById, hnone]

/-- Witness for C7 on a concrete one-attachment collection. -/
theorem C7_delete_ordering_witness :
    (AttachmentService.delete
        [⟨"aaaaaaaaaaaaaaaaaaaaaaaa", "bbbbbbbbbbbbbbbbbbbbbbbb", "report.txt", "report.txt",
          "attachments/bbbbbbbbbbbbbbbbbbbbbbbb/aaaaaaaaaaaaaaaaaaaaaaaa", none, none⟩]
        "aaaaaaaaaaaaaaaaaaaaaaaa").outcome = .ok () ∧
    (AttachmentService.delete
        [⟨"aaaaaaaaaaaaaaaaaaaaaaaa", "bbbbbbbbbbbbbbbbbbbbbbbb", "report.txt", "report.txt",
          "attachments/bbbbbbbbbbbbbbbbbbbbbbbb/aaaaaaaaaaaaaaaaaaaaaaaa", none, none⟩]
        "aaaaaaaaaaaaaaaaaaaaaaaa").events =
      [.objectDeleted "attachments/bbbbbbbbbbbbbbbbbbbbbbbb/aaaaaaaaaaaaaaaaaaaaaaaa",
       .docDeleted "aaaaaaaaaaaaaaaaaaaaaaaa"] ∧
    AttachmentRepo.get
        (AttachmentService.delete
          [⟨"aaaaaaaaaaaaaaaaaaaaaaaa", "bbbbbbbbbbbbbbbbbbbbbbbb", "report.txt", "report.txt",
            "attachments/bbbbbbbbbbbbbbbbbbbbbbbb/aaaaaaaaaaaaaaaaaaaaaaaa", none, none⟩]
          "aaaaaaaaaaaaaaaaaaaaaaaa").docs
        "aaaaaaaaaaaaaaaaaaaaaaaa" = .error .missingRecord :=
  C7_delete_ordering.1
    [⟨"aaaaaaaaaaaaaaaaaaaaaaaa", "bbbbbbbbbbbbbbbbbbbbbbbb", "report.txt", "report.txt",
      "attachments/bbbbbbbbbbbbbbbbbbbbbbbb/aaaaaaaaaaaaaaaaaaaaaaaa", none, none⟩]
    "aaaaaaaaaaaaaaaaaaaaaaaa"
    ⟨"aaaaaaaaaaaaaaaaaaaaaaaa", "bbbbbbbbbbbbbbbbbbbbbbbb", "report.txt", "report.txt",
      "attachments/bbbbbbbbbbbbbbbbbbbbbbbb/aaaaaaaaaaaaaaaaaaaaaaaa", none, none⟩
    (by decide) (by decide)

/-- `AttachmentRepo.create` succeeds when there is no duplicate and the `_id` is fresh. -/
theorem AttachmentRepo.create_success (docs : List AttachmentDoc) (a : AttachmentDoc)
    (hdup : AttachmentRepo.is_duplicate docs a.entity_id a.code none = false)
    (hid : docs.any (fun d => d.id == a.id) = false) :
    AttachmentRepo.create docs a = .ok (docs ++ [a], a) := by
  unfold AttachmentRepo.create
  rw [if_neg (by simp [hdup]), if_neg (by simp [hid])]
  have hf : AttachmentRepo.findById (docs ++ [a]) a.id = some a :=
    find?_append_singleton _ docs a hid (by simp)
  rw [AttachmentRepo.findById] at hf
  simp only [AttachmentRepo.findById, hf]

/-- `ImageRepo.create` succeeds when under the limit, with no duplicate and a fresh `_id`. -/
theorem ImageRepo.create_success_image (cfg : Config) (docs : List ImageDoc) (a : ImageDoc)
    (hlim : ImageRepo.count_by_entity_id docs a.entity_id < cfg.image_upload_limit)
    (hdup : ImageRepo.is_duplicate docs a.entity_id a.code none = false)
    (hid : docs.any (fun d => d.id == a.id) = false) :
    ImageRepo.create cfg docs a = .ok (docs ++ [a], a) := by
  unfold ImageRepo.create
  rw [if_neg (Nat.not_le.mpr hlim), if_neg (by simp [hdup]), if_neg (by simp [hid])]
  have hf : ImageRepo.findById (docs ++ [a]) a.id = some a :=
    find?_append_singleton _ docs a hid (by simp)
  rw [ImageRepo.findById] at hf
  simp only [ImageRepo.findById, hf]

/-- The errors `AttachmentRepo.create` can produce (never `UploadLimitReached`: the
attachment repository performs no quota check). -/
theorem AttachmentRepo.create_error {docs : List AttachmentDoc} {a : AttachmentDoc}
    {e : APIError} (h : AttachmentRepo.create docs a = .error e) :
    e = .duplicateRecord ∨ e = .duplicateKey ∨ e = .missingRecord := by
  unfold AttachmentRepo.create at h
  split at h
  · cases h; exact Or.inl rfl
  · split at h
    · cases h; exact Or.inr (Or.inl rfl)
    · cases hf : AttachmentRepo.findById (docs ++ [a]) a.id with
      | none =>
        rw [AttachmentRepo.findById] at hf
        simp only [AttachmentRepo.findById, hf] at h
        cases h; exact Or.inr (Or.inr rfl)
      | some d =>
        rw [AttachmentRepo.findById] at hf
        simp only [AttachmentRepo.findById, hf] at h
        exact absurd h (by simp)

/-- The errors `ImageRepo.create` can produce when the quota is not yet reached. -/
theorem ImageRepo.create_error_of_lt {cfg : Config} {docs : List ImageDoc} {a : ImageDoc}
    {e : APIError} (h : ImageRepo.create cfg docs a = .error e)
    (hlim : ImageRepo.count_by_entity_id docs a.entity_id < cfg.image_upload_limit) :
    e = .duplicateRecord ∨ e = .duplicateKey ∨ e = .missingRecord := by
  unfold ImageRepo.create at h
  rw [if_neg (Nat.not_le.mpr hlim)] at h
  split at h
  · cases h; exact Or.inl rfl
  · split at h
    · cases h; exact Or.inr (Or.inl rfl)
    · cases hf : ImageRepo.findById (docs ++ [a]) a.id with
      | none =>
        rw [ImageRepo.findById] at hf
        simp only [ImageRepo.findById, hf] at h
        cases h; exact Or.inr (Or.inr rfl)
      | some d =>
        rw [ImageRepo.findById] at hf
        simp only [ImageRepo.findById, hf] at h
        exact absurd h (by simp)

/-- Full characterisation of a successful `AttachmentService.create`. -/
theorem AttachmentService.create_success_svc (cfg : Config) (docs : List AttachmentDoc)
    (attachment : AttachmentPostSchema) (attachment_id eid aid : String)
    (he : parseObjectId attachment.entity_id = some eid)
    (ha : parseObjectId attachment_id = some aid)
    (hlim : (docs.filter (fun d => d.entity_id == eid)).length < cfg.attachment_upload_limit)
    (hext : (pathSuffix attachment.file_name == "" ||
      !(cfg.attachment_allowed_file_extensions.contains
        (lowerString (pathSuffix attachment.file_name)))) = false)
    (hdup : AttachmentRepo.is_duplicate docs eid (generate_code attachment.file_name) none
      = false)
    (hid : docs.any (fun d => d.id == aid) = false) :
    AttachmentService.create cfg docs attachment attachment_id =
      ⟨.ok ⟨aid, eid, attachment.file_name, generate_code attachment.file_name,
          AttachmentStore.objectKey attachment.entity_id attachment_id,
          attachment.title, attachment.description⟩,
        docs ++ [⟨aid, eid, attachment.file_name, generate_code attachment.file_name,
          AttachmentStore.objectKey attachment.entity_id attachment_id,
          attachment.title, attachment.description⟩],
        [.presignedPostIssued (AttachmentStore.objectKey attachment.entity_id attachment_id),
         .docInserted aid]⟩ := by
  unfold AttachmentService.create
  unfold AttachmentRepo.count_by_entity_id
  simp only [he, ha]
  rw [if_neg (Nat.not_le.mpr hlim), if_neg (by simp only [hext]; exact Bool.false_ne_true)]
  rw [AttachmentRepo.create_success docs _ hdup hid]

/-- Full characterisation of a successful `ImageService.create`. -/
theorem ImageService.create_success_svc_image (cfg : Config) (docs : List ImageDoc)
    (image_metadata : ImagePostMetadataSchema) (upload_file : UploadFileState)
    (image_id : String) (decode : List Nat → Option String) (eid iid : String)
    (thumbnail : String)
    (he : parseObjectId image_metadata.entity_id = some eid)
    (hi : parseObjectId image_id = some iid)
    (hlim : ImageRepo.count_by_entity_id docs eid < cfg.image_upload_limit)
    (htype : mimetypesGuessType upload_file.filename = upload_file.content_type)
    (hdec : decode (upload_file.contents.drop upload_file.pos) = some thumbnail)
    (hdup : ImageRepo.is_duplicate docs eid (generate_code upload_file.filename) none = false)
    (hid : docs.any (fun d => d.id == iid) = false) :
    ImageService.create cfg docs image_metadata upload_file image_id decode =
      ⟨.ok ⟨iid, eid, upload_file.filename, generate_code upload_file.filename,
          "images/" ++ image_metadata.entity_id ++ "/" ++ image_id,
          image_metadata.title, image_metadata.description, false, thumbnail⟩,
        docs ++ [⟨iid, eid, upload_file.filename, generate_code upload_file.filename,
          "images/" ++ image_metadata.entity_id ++ "/" ++ image_id,
          image_metadata.title, image_metadata.description, false, thumbnail⟩],
        [.thumbnailGenerated,
         .objectUploaded ("images/" ++ image_metadata.entity_id ++ "/" ++ image_id)
           upload_file.contents,
         .docInserted iid]⟩ := by
  have hthumb : generate_thumbnail_base64_str decode upload_file =
      .ok (thumbnail, { upload_file with pos := 0 }) := by
    unfold generate_thumbnail_base64_str
    simp only [hdec]
  unfold ImageService.create
  simp only [he, hi, hthumb, ImageStore.upload]
  rw [if_neg (Nat.not_le.mpr hlim), if_neg (by simp [htype])]
  rw [ImageRepo.create_success_image cfg docs _ hlim hdup hid]
  simp [List.drop_zero]

/-- `generate_thumbnail_base64_str` fails only with `InvalidImageFileError`. -/
theorem generate_thumbnail_error {decode : List Nat → Option String} {f : UploadFileState}
    {e : APIError} (h : generate_thumbnail_base64_str decode f = .error e) :
    e = .invalidImageFile := by
  unfold generate_thumbnail_base64_str at h
  split at h
  · cases h; rfl
  · exact absurd h (by simp)

/-- With a valid entity id, `AttachmentService.create` fails with `UploadLimitReached`
exactly when the entity's attachment count has reached the configured limit. -/
theorem AttachmentService.create_limit_iff (cfg : Config) (docs : List AttachmentDoc)
    (attachment : AttachmentPostSchema) (attachment_id eid : String)
    (he : parseObjectId attachment.entity_id = some eid) :
    ((AttachmentService.create cfg docs attachment attachment_id).outcome =
        .error .uploadLimitReached ↔
      cfg.attachment_upload_limit ≤ (docs.filter (fun d => d.entity_id == eid)).length) := by
  unfold AttachmentService.create AttachmentRepo.count_by_entity_id
  simp only [he]
  by_cases hlim : cfg.attachment_upload_limit ≤
      (docs.filter (fun d => d.entity_id == eid)).length
  · rw [if_pos hlim]
    simpa using hlim
  · rw [if_neg hlim]
    constructor
    · intro hc
      exfalso
      split at hc
      · exact absurd hc (by simp)
      · split at hc
        · exact absurd hc (by simp)
        · split at hc
          · rename_i hcreate
            simp only [] at hc
            cases hc
            rcases AttachmentRepo.create_error hcreate with h | h | h <;> cases h
          · exact absurd hc (by simp)
    · intro hc
      exact absurd hc hlim

/-- With a valid entity id, `ImageService.create` fails with `UploadLimitReached` exactly
when the entity's image count has reached the configured limit. -/
theorem ImageService.create_limit_iff_image (cfg : Config) (docs : List ImageDoc)
    (image_metadata : ImagePostMetadataSchema) (upload_file : UploadFileState)
    (image_id : String) (decode : List Nat → Option String) (eid : String)
    (he : parseObjectId image_metadata.entity_id = some eid) :
    ((ImageService.create cfg docs image_metadata upload_file image_id decode).outcome =
        .error .uploadLimitReached ↔
      cfg.image_upload_limit ≤ ImageRepo.count_by_entity_id docs eid) := by
  unfold ImageService.create
  simp only [he]
  by_cases hlim : cfg.image_upload_limit ≤ ImageRepo.count_by_entity_id docs eid
  · rw [if_pos hlim]
    simpa using hlim
  · rw [if_neg hlim]
    constructor
    · intro hc
      exfalso
      split at hc
      · exact absurd hc (by simp)
      · split at hc
        · rename_i hthumb
          have := generate_thumbnail_error hthumb
          subst this
          exact absurd hc (by simp)
        · split at hc
          · exact absurd hc (by simp)
          · split at hc
            · rename_i hcreate
              simp only [] at hc
              cases hc
              rcases ImageRepo.create_error_of_lt hcreate (Nat.lt_of_not_le hlim)
                with h | h | h <;> cases h
            · exact absurd hc (by simp)
    · intro hc
      exact absurd hc hlim

/-- An `UploadLimitReached` failure of `AttachmentService.create` changes nothing and
issues no external calls: the whole result is the error with the state untouched. -/
theorem AttachmentService.create_limit_closed (cfg : Config)
    (docs : List AttachmentDoc) (attachment : AttachmentPostSchema) (attachment_id : String)
    (h : (AttachmentService.create cfg docs attachment attachment_id).outcome =
      .error .uploadLimitReached) :
    AttachmentService.create cfg docs attachment attachment_id =
      ⟨.error .uploadLimitReached, docs, []⟩ := by
  cases hpe : parseObjectId attachment.entity_id with
  | none =>
    exfalso
    unfold AttachmentService.create at h
    simp only [hpe] at h
    exact absurd h (by simp)
  | some eid =>
    have hlim : cfg.attachment_upload_limit ≤
        (docs.filter (fun d => d.entity_id == eid)).length :=
      (AttachmentService.create_limit_iff cfg docs attachment attachment_id eid hpe).mp h
    unfold AttachmentService.create AttachmentRepo.count_by_entity_id
    simp only [hpe]
    rw [if_pos hlim]

/-- An `UploadLimitReached` failure of `ImageService.create` changes nothing and issues no
external calls: the whole result is the error with the state untouched. -/
theorem ImageService.create_limit_closed_image (cfg : Config) (docs : List ImageDoc)
    (image_metadata : ImagePostMetadataSchema) (upload_file : UploadFileState)
    (image_id : String) (decode : List Nat → Option String)
    (h : (ImageService.create cfg docs image_metadata upload_file image_id decode).outcome =
      .error .uploadLimitReached) :
    ImageService.create cfg docs image_metadata upload_file image_id decode =
      ⟨.error .uploadLimitReached, docs, []⟩ := by
  cases hpe : parseObjectId image_metadata.entity_id with
  | none =>
    exfalso
    unfold ImageService.create at h
    simp only [hpe] at h
    exact absurd h (by simp)
  | some eid =>
    have hlim : cfg.image_upload_limit ≤ ImageRepo.count_by_entity_id docs eid :=
      (ImageService.create_limit_iff_image cfg docs image_metadata upload_file image_id decode
        eid hpe).mp h
    unfold ImageService.create
    simp only [hpe]
    rw [if_pos hlim]

/-- C3: with a per-entity upload limit N and a well-formed entity id, a create (attachment
or image) fails with `UploadLimitReached` exactly when the entity's current record count is
at least N; a limit-failing create performs no store side effects and leaves the collection
unchanged; and when the count is below N (so in particular for the N-th create) the create
succeeds provided the remaining validation passes. -/
theorem C3_upload_limit :
    (∀ (cfg : Config) (docs : List AttachmentDoc) (attachment : AttachmentPostSchema)
        (attachment_id eid : String),
      parseObjectId attachment.entity_id = some eid →
      ((AttachmentService.create cfg docs attachment attachment_id).outcome =
          .error .uploadLimitReached ↔
        cfg.attachment_upload_limit ≤ (docs.filter (fun d => d.entity_id == eid)).length)) ∧
    (∀ (cfg : Config) (docs : List AttachmentDoc) (attachment : AttachmentPostSchema)
        (attachment_id : String),
      (AttachmentService.create cfg docs attachment attachment_id).outcome =
        .error .uploadLimitReached →
      AttachmentService.create cfg docs attachment attachment_id =
        ⟨.error .uploadLimitReached, docs, []⟩) ∧
    (∀ (cfg : Config) (docs : List AttachmentDoc) (attachment : AttachmentPostSchema)
        (attachment_id eid aid : String),
      parseObjectId attachment.entity_id = some eid →
      parseObjectId attachment_id = some aid →
      (docs.filter (fun d => d.entity_id == eid)).length < cfg.attachment_upload_limit →
      (pathSuffix attachment.file_name == "" ||
        !(cfg.attachment_allowed_file_extensions.contains
          (lowerString (pathSuffix attachment.file_name)))) = false →
      AttachmentRepo.is_duplicate docs eid (generate_code attachment.file_name) none
        = false →
      docs.any (fun d => d.id == aid) = false →
      (AttachmentService.create cfg docs attachment attachment_id).outcome.isOk = true) ∧
    (∀ (cfg : Config) (docs : List ImageDoc) (image_metadata : ImagePostMetadataSchema)
        (upload_file : UploadFileState) (image_id : String)
        (decode : List Nat → Option String) (eid : String),
      parseObjectId image_metadata.entity_id = some eid →
      ((ImageService.create cfg docs image_metadata upload_file image_id decode).outcome =
          .error .uploadLimitReached ↔
        cfg.image_upload_limit ≤ ImageRepo.count_by_entity_id docs eid)) ∧
    (∀ (cfg : Config) (docs : List ImageDoc) (image_metadata : ImagePostMetadataSchema)
        (upload_file : UploadFileState) (image_id : String)
        (decode : List Nat → Option String),
      (ImageService.create cfg docs image_metadata upload_file image_id decode).outcome =
        .error .uploadLimitReached →
      ImageService.create cfg docs image_metadata upload_file image_id decode =
        ⟨.error .uploadLimitReached, docs, []⟩) ∧
    (∀ (cfg : Config) (docs : List ImageDoc) (image_metadata : ImagePostMetadataSchema)
        (upload_file : UploadFileState) (image_id : String)
        (decode : List Nat → Option String) (eid iid thumbnail : String),
      parseObjectId image_metadata.entity_id = some eid →
      parseObjectId image_id = some iid →
      ImageRepo.count_by_entity_id docs eid < cfg.image_upload_limit →
      mimetypesGuessType upload_file.filename = upload_file.content_type →
      decode (upload_file.contents.drop upload_file.pos) = some thumbnail →
      ImageRepo.is_duplicate docs eid (generate_code upload_file.filename) none = false →
      docs.any (fun d => d.id == iid) = false →
      (ImageService.create cfg docs image_metadata upload_file image_id decode).outcome.isOk
        = true) := by
  refine ⟨AttachmentService.create_limit_iff, AttachmentService.create_limit_closed,
    ?_, ImageService.create_limit_iff_image, ImageService.create_limit_closed_image, ?_⟩
  · intro cfg docs attachment attachment_id eid aid he ha hlim hext hdup hid
    rw [AttachmentService.create_success_svc cfg docs attachment attachment_id eid aid
      he ha hlim hext hdup hid]
    rfl
  · intro cfg docs image_metadata upload_file image_id decode eid iid thumbnail he hi hlim
      htype hdec hdup hid
    rw [ImageService.create_success_svc_image cfg docs image_metadata upload_file image_id decode
      eid iid thumbnail he hi hlim htype hdec hdup hid]
    rfl

/-- Witness for C3 with limit N = 1: on a one-attachment entity the second create fails
with `UploadLimitReached` and does nothing; on an empty collection the first (N-th) create
succeeds. -/
theorem C3_upload_limit_witness :
    (AttachmentService.create ⟨1, 1, [".txt"], 100⟩
        [⟨"aaaaaaaaaaaaaaaaaaaaaaaa", "bbbbbbbbbbbbbbbbbbbbbbbb", "a.txt", "a.txt",
          "attachments/bbbbbbbbbbbbbbbbbbbbbbbb/aaaaaaaaaaaaaaaaaaaaaaaa", none, none⟩]
        ⟨"bbbbbbbbbbbbbbbbbbbbbbbb", "b.txt", none, none⟩
        "cccccccccccccccccccccccc").outcome = .error .uploadLimitReached ∧
    AttachmentService.create ⟨1, 1, [".txt"], 100⟩
        [⟨"aaaaaaaaaaaaaaaaaaaaaaaa", "bbbbbbbbbbbbbbbbbbbbbbbb", "a.txt", "a.txt",
          "attachments/bbbbbbbbbbbbbbbbbbbbbbbb/aaaaaaaaaaaaaaaaaaaaaaaa", none, none⟩]
        ⟨"bbbbbbbbbbbbbbbbbbbbbbbb", "b.txt", none, none⟩
        "cccccccccccccccccccccccc" =
      ⟨.error .uploadLimitReached,
       [⟨"aaaaaaaaaaaaaaaaaaaaaaaa", "bbbbbbbbbbbbbbbbbbbbbbbb", "a.txt", "a.txt",
         "attachments/bbbbbbbbbbbbbbbbbbbbbbbb/aaaaaaaaaaaaaaaaaaaaaaaa", none, none⟩], []⟩ ∧
    (AttachmentService.create ⟨1, 1, [".txt"], 100⟩ []
        ⟨"bbbbbbbbbbbbbbbbbbbbbbbb", "b.txt", none, none⟩
        "cccccccccccccccccccccccc").outcome.isOk = true :=
  ⟨(C3_upload_limit.1 ⟨1, 1, [".txt"], 100⟩
      [⟨"aaaaaaaaaaaaaaaaaaaaaaaa", "bbbbbbbbbbbbbbbbbbbbbbbb", "a.txt", "a.txt",
        "attachments/bbbbbbbbbbbbbbbbbbbbbbbb/aaaaaaaaaaaaaaaaaaaaaaaa", none, none⟩]
      ⟨"bbbbbbbbbbbbbbbbbbbbbbbb", "b.txt", none, none⟩
      "cccccccccccccccccccccccc" "bbbbbbbbbbbbbbbbbbbbbbbb" (by decide)).mpr (by decide),
   C3_upload_limit.2.1 ⟨1, 1, [".txt"], 100⟩
      [⟨"aaaaaaaaaaaaaaaaaaaaaaaa", "bbbbbbbbbbbbbbbbbbbbbbbb", "a.txt", "a.txt",
        "attachments/bbbbbbbbbbbbbbbbbbbbbbbb/aaaaaaaaaaaaaaaaaaaaaaaa", none, none⟩]
      ⟨"bbbbbbbbbbbbbbbbbbbbbbbb", "b.txt", none, none⟩
      "cccccccccccccccccccccccc" (by decide),
   C3_upload_limit.2.2.1 ⟨1, 1, [".txt"], 100⟩ []
      ⟨"bbbbbbbbbbbbbbbbbbbbbbbb", "b.txt", none, none⟩
      "cccccccccccccccccccccccc" "bbbbbbbbbbbbbbbbbbbbbbbb" "cccccccccccccccccccccccc"
      (by decide) (by decide) (by decide) (by decide) (by decide) (by decide)⟩

/-- C6: creating an image whose MIME type inferred from the file name's extension differs
from the declared content type fails with the file-type-mismatch error
(`InvalidFilenameExtension` in the service, `FileTypeMismatchException` in
`core/exceptions.py`) before any thumbnail generation, object-store upload, or metadata
insert — the result is the bare error with no events and the collection untouched — while a
matching pair (e.g. a `.png` file declared as `image/png`) passes this check. -/
theorem C6_image_content_type_check :
    (∀ (cfg : Config) (docs : List ImageDoc) (image_metadata : ImagePostMetadataSchema)
        (upload_file : UploadFileState) (image_id : String)
        (decode : List Nat → Option String) (eid : String),
      parseObjectId image_metadata.entity_id = some eid →
      ImageRepo.count_by_entity_id docs eid < cfg.image_upload_limit →
      mimetypesGuessType upload_file.filename ≠ upload_file.content_type →
      ImageService.create cfg docs image_metadata upload_file image_id decode =
        ⟨.error .fileTypeMismatch, docs, []⟩) ∧
    (∀ (cfg : Config) (docs : List ImageDoc) (image_metadata : ImagePostMetadataSchema)
        (upload_file : UploadFileState) (image_id : String)
        (decode : List Nat → Option String),
      mimetypesGuessType upload_file.filename = upload_file.content_type →
      (ImageService.create cfg docs image_metadata upload_file image_id decode).outcome ≠
        .error .fileTypeMismatch) := by
  constructor
  · intro cfg docs image_metadata upload_file image_id decode eid he hlim hmis
    unfold ImageService.create
    simp only [he]
    rw [if_neg (Nat.not_le.mpr hlim), if_pos (by simp [bne_iff_ne, hmis])]
  · intro cfg docs image_metadata upload_file image_id decode hmatch hc
    unfold ImageService.create at hc
    split at hc
    · exact absurd hc (by simp)
    · split at hc
      · exact absurd hc (by simp)
      · rename_i hlim
        split at hc
        · rename_i hne
          rw [hmatch] at hne
          simp at hne
        · split at hc
          · rename_i hthumb
            have := generate_thumbnail_error hthumb
            subst this
            exact absurd hc (by simp)
          · split at hc
            · exact absurd hc (by simp)
            · simp only [ImageStore.upload] at hc
              split at hc
              · rename_i hcreate
                simp only [] at hc
                cases hc
                rcases ImageRepo.create_error_of_lt hcreate (Nat.lt_of_not_le hlim)
                  with hh | hh | hh <;> cases hh
              · exact absurd hc (by simp)

/-- Witness for C6: `photo.png` declared as `image/jpeg` fails with the mismatch error and
no side effects; `photo.png` declared as `image/png` does not hit the mismatch error. -/
theorem C6_image_content_type_check_witness :
    ImageService.create ⟨1, 1, [".txt"], 100⟩ [] ⟨"bbbbbbbbbbbbbbbbbbbbbbbb", none, none⟩
        ⟨"photo.png", some "image/jpeg", [7, 8, 9], 0⟩ "aaaaaaaaaaaaaaaaaaaaaaaa"
        (fun _ => some "thumb") =
      ⟨.error .fileTypeMismatch, [], []⟩ ∧
    (ImageService.create ⟨1, 1, [".txt"], 100⟩ [] ⟨"bbbbbbbbbbbbbbbbbbbbbbbb", none, none⟩
        ⟨"photo.png", some "image/png", [7, 8, 9], 0⟩ "aaaaaaaaaaaaaaaaaaaaaaaa"
        (fun _ => some "thumb")).outcome ≠ .error .fileTypeMismatch :=
  ⟨C6_image_content_type_check.1 ⟨1, 1, [".txt"], 100⟩ []
      ⟨"bbbbbbbbbbbbbbbbbbbbbbbb", none, none⟩
      ⟨"photo.png", some "image/jpeg", [7, 8, 9], 0⟩ "aaaaaaaaaaaaaaaaaaaaaaaa"
      (fun _ => some "thumb") "bbbbbbbbbbbbbbbbbbbbbbbb"
      (by decide) (by decide) (by decide),
   C6_image_content_type_check.2 ⟨1, 1, [".txt"], 100⟩ []
      ⟨"bbbbbbbbbbbbbbbbbbbbbbbb", none, none⟩
      ⟨"photo.png", some "image/png", [7, 8, 9], 0⟩ "aaaaaaaaaaaaaaaaaaaaaaaa"
      (fun _ => some "thumb") (by decide)⟩

/-- Without an exclusion id, the duplicate check is a plain entity/code match
(`$ne: None` excludes nothing since every `_id` is non-null). -/
theorem AttachmentRepo.is_duplicate_none (docs : List AttachmentDoc) (e c : String) :
    AttachmentRepo.is_duplicate docs e c none =
      docs.any (fun d => d.entity_id == e && d.code == c) := by
  unfold AttachmentRepo.is_duplicate
  congr 1
  funext d
  rw [show (some d.id != (none : Option String)) = true from rfl, Bool.and_true]

/-- With an exclusion id, the duplicate check is an entity/code match on the other
documents. -/
theorem AttachmentRepo.is_duplicate_some (docs : List AttachmentDoc) (e c oid : String) :
    AttachmentRepo.is_duplicate docs e c (some oid) =
      docs.any (fun d => d.entity_id == e && d.code == c && !(d.id == oid)) := by
  rfl

/-- Image version of `is_duplicate_none`. -/
theorem ImageRepo.is_duplicate_none_image (docs : List ImageDoc) (e c : String) :
    ImageRepo.is_duplicate docs e c none =
      docs.any (fun d => d.entity_id == e && d.code == c) := by
  unfold ImageRepo.is_duplicate
  congr 1
  funext d
  rw [show (some d.id != (none : Option String)) = true from rfl, Bool.and_true]

/-- Image version of `is_duplicate_some`. -/
theorem ImageRepo.is_duplicate_some_image (docs : List ImageDoc) (e c oid : String) :
    ImageRepo.is_duplicate docs e c (some oid) =
      docs.any (fun d => d.entity_id == e && d.code == c && !(d.id == oid)) := by
  rfl

/-- A duplicate makes `AttachmentRepo.create` fail with `DuplicateRecordError`. -/
theorem AttachmentRepo.create_dup (docs : List AttachmentDoc) (a : AttachmentDoc)
    (hdup : AttachmentRepo.is_duplicate docs a.entity_id a.code none = true) :
    AttachmentRepo.create docs a = .error .duplicateRecord := by
  unfold AttachmentRepo.create
  rw [if_pos hdup]

/-- An `_id` collision (without a duplicate) makes `AttachmentRepo.create` fail with
PyMongo's duplicate-key error. -/
theorem AttachmentRepo.create_dupkey (docs : List AttachmentDoc) (a : AttachmentDoc)
    (hdup : AttachmentRepo.is_duplicate docs a.entity_id a.code none = false)
    (hid : docs.any (fun d => d.id == a.id) = true) :
    AttachmentRepo.create docs a = .error .duplicateKey := by
  unfold AttachmentRepo.create
  rw [if_neg (by simp [hdup]), if_pos hid]

/-- A duplicate under the limit makes `ImageRepo.create` fail with `DuplicateRecordError`. -/
theorem ImageRepo.create_dup_image (cfg : Config) (docs : List ImageDoc) (a : ImageDoc)
    (hlim : ImageRepo.count_by_entity_id docs a.entity_id < cfg.image_upload_limit)
    (hdup : ImageRepo.is_duplicate docs a.entity_id a.code none = true) :
    ImageRepo.create cfg docs a = .error .duplicateRecord := by
  unfold ImageRepo.create
  rw [if_neg (Nat.not_le.mpr hlim), if_pos hdup]

/-- An `_id` collision under the limit and without a duplicate makes `ImageRepo.create`
fail with PyMongo's duplicate-key error. -/
theorem ImageRepo.create_dupkey_image (cfg : Config) (docs : List ImageDoc) (a : ImageDoc)
    (hlim : ImageRepo.count_by_entity_id docs a.entity_id < cfg.image_upload_limit)
    (hdup : ImageRepo.is_duplicate docs a.entity_id a.code none = false)
    (hid : docs.any (fun d => d.id == a.id) = true) :
    ImageRepo.create cfg docs a = .error .duplicateKey := by
  unfold ImageRepo.create
  rw [if_neg (Nat.not_le.mpr hlim), if_neg (by simp [hdup]), if_pos hid]

/-- Shape of a successful `AttachmentService.create`: the new document is appended, it
carries the submitted file name (and its code), and its entity id is the parsed one. -/
theorem AttachmentService.create_ok_shape {cfg : Config} {docs : List AttachmentDoc}
    {attachment : AttachmentPostSchema} {attachment_id : String} {out : AttachmentDoc}
    (h : (AttachmentService.create cfg docs attachment attachment_id).outcome = .ok out) :
    (AttachmentService.create cfg docs attachment attachment_id).docs = docs ++ [out] ∧
    out.file_name = attachment.file_name ∧
    out.code = generate_code attachment.file_name ∧
    (∀ eid, parseObjectId attachment.entity_id = some eid → out.entity_id = eid) := by
  unfold AttachmentService.create AttachmentRepo.count_by_entity_id at h ⊢
  cases hpe : parseObjectId attachment.entity_id with
  | none => simp only [hpe] at h; exact absurd h (by simp)
  | some eid =>
    simp only [hpe] at h ⊢
    by_cases hlim : cfg.attachment_upload_limit ≤
        (docs.filter (fun d => d.entity_id == eid)).length
    · rw [if_pos hlim] at h; exact absurd h (by simp)
    · rw [if_neg hlim] at h ⊢
      by_cases hext : (pathSuffix attachment.file_name == "" ||
          !(cfg.attachment_allowed_file_extensions.contains
            (lowerString (pathSuffix attachment.file_name)))) = true
      · rw [if_pos hext] at h; exact absurd h (by simp)
      · rw [if_neg hext] at h ⊢
        cases hpa : parseObjectId attachment_id with
        | none => simp only [hpa] at h; exact absurd h (by simp)
        | some aid =>
          simp only [hpa] at h ⊢
          generalize hcr : AttachmentRepo.create docs
              ⟨aid, eid, attachment.file_name, generate_code attachment.file_name,
               AttachmentStore.objectKey attachment.entity_id attachment_id,
               attachment.title, attachment.description⟩ = res at h ⊢
          cases res with
          | error e => exact absurd h (by simp)
          | ok p =>
            obtain ⟨docs', out'⟩ := p
            obtain ⟨hdocs, hout⟩ := AttachmentRepo.create_ok hcr
            cases h
            subst hout hdocs
            refine ⟨rfl, rfl, rfl, ?_⟩
            intro eid' heid'
            cases heid'
            rfl

/-- With a valid entity id, a fresh valid record id, the quota not reached and an allowed
extension, `AttachmentService.create` fails with `DuplicateRecord` exactly when some stored
attachment of the entity carries the same code. -/
theorem AttachmentService.create_duplicate_iff (cfg : Config) (docs : List AttachmentDoc)
    (attachment : AttachmentPostSchema) (attachment_id eid aid : String)
    (he : parseObjectId attachment.entity_id = some eid)
    (ha : parseObjectId attachment_id = some aid)
    (hlim : (docs.filter (fun d => d.entity_id == eid)).length < cfg.attachment_upload_limit)
    (hext : (pathSuffix attachment.file_name == "" ||
      !(cfg.attachment_allowed_file_extensions.contains
        (lowerString (pathSuffix attachment.file_name)))) = false) :
    ((AttachmentService.create cfg docs attachment attachment_id).outcome =
        .error .duplicateRecord ↔
      docs.any (fun d => d.entity_id == eid && d.code == generate_code attachment.file_name)
        = true) := by
  unfold AttachmentService.create AttachmentRepo.count_by_entity_id
  simp only [he, ha]
  rw [if_neg (Nat.not_le.mpr hlim), if_neg (by simp only [hext]; exact Bool.false_ne_true)]
  by_cases hdup : AttachmentRepo.is_duplicate docs eid (generate_code attachment.file_name)
      none = true
  · rw [AttachmentRepo.create_dup docs _ hdup]
    exact iff_of_true rfl (by rwa [AttachmentRepo.is_duplicate_none] at hdup)
  · have hdup' := Bool.eq_false_iff.mpr hdup
    have hrhs : ¬(docs.any
        (fun d => d.entity_id == eid && d.code == generate_code attachment.file_name)
          = true) := by
      rw [← AttachmentRepo.is_duplicate_none]
      exact hdup
    by_cases hid : docs.any (fun d => d.id == aid) = true
    · rw [AttachmentRepo.create_dupkey docs _ hdup' hid]
      exact iff_of_false (by simp) hrhs
    · rw [AttachmentRepo.create_success docs _ hdup' (Bool.eq_false_iff.mpr hid)]
      exact iff_of_false (by simp) hrhs

/-- Image analogue of `AttachmentService.create_duplicate_iff` (the content-type check and
thumbnail generation must pass for the flow to reach the repository). -/
theorem ImageService.create_duplicate_iff_image (cfg : Config) (docs : List ImageDoc)
    (image_metadata : ImagePostMetadataSchema) (upload_file : UploadFileState)
    (image_id : String) (decode : List Nat → Option String) (eid iid thumbnail : String)
    (he : parseObjectId image_metadata.entity_id = some eid)
    (hi : parseObjectId image_id = some iid)
    (hlim : ImageRepo.count_by_entity_id docs eid < cfg.image_upload_limit)
    (htype : mimetypesGuessType upload_file.filename = upload_file.content_type)
    (hdec : decode (upload_file.contents.drop upload_file.pos) = some thumbnail) :
    ((ImageService.create cfg docs image_metadata upload_file image_id decode).outcome =
        .error .duplicateRecord ↔
      docs.any (fun d => d.entity_id == eid && d.code == generate_code upload_file.filename)
        = true) := by
  have hthumb : generate_thumbnail_base64_str decode upload_file =
      .ok (thumbnail, { upload_file with pos := 0 }) := by
    unfold generate_thumbnail_base64_str
    simp only [hdec]
  unfold ImageService.create
  simp only [he, hi, hthumb, ImageStore.upload]
  rw [if_neg (Nat.not_le.mpr hlim), if_neg (by simp [htype])]
  by_cases hdup : ImageRepo.is_duplicate docs eid (generate_code upload_file.filename)
      none = true
  · rw [ImageRepo.create_dup_image cfg docs _ hlim hdup]
    exact iff_of_true rfl (by rwa [ImageRepo.is_duplicate_none_image] at hdup)
  · have hdup' := Bool.eq_false_iff.mpr hdup
    have hrhs : ¬(docs.any
        (fun d => d.entity_id == eid && d.code == generate_code upload_file.filename)
          = true) := by
      rw [← ImageRepo.is_duplicate_none_image]
      exact hdup
    by_cases hid : docs.any (fun d => d.id == iid) = true
    · rw [ImageRepo.create_dupkey_image cfg docs _ hlim hdup' hid]
      exact iff_of_false (by simp) hrhs
    · rw [ImageRepo.create_success_image cfg docs _ hlim hdup' (Bool.eq_false_iff.mpr hid)]
      exact iff_of_false (by simp) hrhs

/-- When the submitted file name differs from the stored one, `AttachmentRepo.update`
fails with `DuplicateRecord` exactly when some other document (the record's own id
excluded) of the same entity carries the same code. -/
theorem AttachmentRepo.update_duplicate_iff (docs : List AttachmentDoc)
    (attachment_id : String) (a : AttachmentDoc) (oid : String) (stored : AttachmentDoc)
    (hoid : parseObjectId attachment_id = some oid)
    (hfind : AttachmentRepo.findById docs oid = some stored)
    (hne : a.file_name ≠ stored.file_name) :
    (AttachmentRepo.update docs attachment_id a = .error .duplicateRecord ↔
      docs.any (fun d => d.entity_id == a.entity_id && d.code == a.code && !(d.id == oid))
        = true) := by
  unfold AttachmentRepo.update
  simp only [hoid]
  rw [AttachmentRepo.findById] at hfind
  simp only [AttachmentRepo.findById, hfind]
  rw [← AttachmentRepo.is_duplicate_some]
  by_cases hdup : AttachmentRepo.is_duplicate docs a.entity_id a.code (some oid) = true
  · rw [if_pos (by simp [bne_iff_ne, hne, hdup])]
    exact iff_of_true rfl hdup
  · rw [if_neg (by simp [hdup])]
    refine iff_of_false ?_ hdup
    intro hc
    split at hc
    · exact absurd hc (by simp)
    · exact absurd hc (by simp)

/-- Image analogue of `update_duplicate_iff`, for either value of `update_primary`. -/
theorem ImageRepo.update_duplicate_iff_image (docs : List ImageDoc) (image_id : String)
    (a : ImageDoc) (update_primary : Bool) (oid : String) (stored : ImageDoc)
    (hoid : parseObjectId image_id = some oid)
    (hfind : ImageRepo.findById docs oid = some stored)
    (hne : a.file_name ≠ stored.file_name) :
    (ImageRepo.update docs image_id a update_primary = .error .duplicateRecord ↔
      docs.any (fun d => d.entity_id == a.entity_id && d.code == a.code && !(d.id == oid))
        = true) := by
  unfold ImageRepo.update
  simp only [hoid]
  rw [ImageRepo.findById] at hfind
  simp only [ImageRepo.findById, hfind]
  rw [← ImageRepo.is_duplicate_some_image]
  by_cases hdup : ImageRepo.is_duplicate docs a.entity_id a.code (some oid) = true
  · rw [if_pos (by simp [bne_iff_ne, hne, hdup])]
    exact iff_of_true rfl hdup
  · rw [if_neg (by simp [hdup])]
    refine iff_of_false ?_ hdup
    intro hc
    split at hc
    · exact absurd hc (by simp)
    · exact absurd hc (by simp)

/-- C2: creating a second attachment (or image) with the same `(entity_id, file_name)`
fails with `DuplicateRecord` while the first create succeeds, and the uniqueness comparison
is a case-sensitive exact match: the stored comparison key (`code`) of a created record is
the submitted `file_name` itself, and the duplicate condition is Boolean string equality on
it. The same check is re-run on update — only when the submitted file name differs from the
stored one — excluding the record's own id. -/
theorem C2_duplicate_file_name :
    (∀ (cfg : Config) (docs : List AttachmentDoc) (attachment : AttachmentPostSchema)
        (attachment_id eid aid : String),
      parseObjectId attachment.entity_id = some eid →
      parseObjectId attachment_id = some aid →
      (docs.filter (fun d => d.entity_id == eid)).length < cfg.attachment_upload_limit →
      (pathSuffix attachment.file_name == "" ||
        !(cfg.attachment_allowed_file_extensions.contains
          (lowerString (pathSuffix attachment.file_name)))) = false →
      ((AttachmentService.create cfg docs attachment attachment_id).outcome =
          .error .duplicateRecord ↔
        docs.any (fun d => d.entity_id == eid && d.code == attachment.file_name) = true)) ∧
    (∀ (cfg : Config) (docs : List ImageDoc) (image_metadata : ImagePostMetadataSchema)
        (upload_file : UploadFileState) (image_id : String)
        (decode : List Nat → Option String) (eid iid thumbnail : String),
      parseObjectId image_metadata.entity_id = some eid →
      parseObjectId image_id = some iid →
      ImageRepo.count_by_entity_id docs eid < cfg.image_upload_limit →
      mimetypesGuessType upload_file.filename = upload_file.content_type →
      decode (upload_file.contents.drop upload_file.pos) = some thumbnail →
      ((ImageService.create cfg docs image_metadata upload_file image_id decode).outcome =
          .error .duplicateRecord ↔
        docs.any (fun d => d.entity_id == eid && d.code == upload_file.filename) = true)) ∧
    (∀ (cfg : Config) (docs : List AttachmentDoc) (attachment : AttachmentPostSchema)
        (attachment_id : String) (out : AttachmentDoc),
      (AttachmentService.create cfg docs attachment attachment_id).outcome = .ok out →
      out.code = attachment.file_name ∧ out.file_name = attachment.file_name) ∧
    (∀ (cfg : Config) (docs : List AttachmentDoc) (attachment : AttachmentPostSchema)
        (attachment_id attachment_id2 eid aid2 : String) (out : AttachmentDoc),
      parseObjectId attachment.entity_id = some eid →
      parseObjectId attachment_id2 = some aid2 →
      (AttachmentService.create cfg docs attachment attachment_id).outcome = .ok out →
      (((AttachmentService.create cfg docs attachment attachment_id).docs.filter
          (fun d => d.entity_id == eid)).length < cfg.attachment_upload_limit) →
      (pathSuffix attachment.file_name == "" ||
        !(cfg.attachment_allowed_file_extensions.contains
          (lowerString (pathSuffix attachment.file_name)))) = false →
      (AttachmentService.create cfg
          (AttachmentService.create cfg docs attachment attachment_id).docs
          attachment attachment_id2).outcome = .error .duplicateRecord) ∧
    (∀ (docs : List AttachmentDoc) (attachment_id : String) (a : AttachmentDoc)
        (oid : String) (stored : AttachmentDoc),
      parseObjectId attachment_id = some oid →
      AttachmentRepo.findById docs oid = some stored →
      a.file_name ≠ stored.file_name →
      (AttachmentRepo.update docs attachment_id a = .error .duplicateRecord ↔
        docs.any (fun d => d.entity_id == a.entity_id && d.code == a.code && !(d.id == oid))
          = true)) ∧
    (∀ (docs : List ImageDoc) (image_id : String) (a : ImageDoc) (update_primary : Bool)
        (oid : String) (stored : ImageDoc),
      parseObjectId image_id = some oid →
      ImageRepo.findById docs oid = some stored →
      a.file_name ≠ stored.file_name →
      (ImageRepo.update docs image_id a update_primary = .error .duplicateRecord ↔
        docs.any (fun d => d.entity_id == a.entity_id && d.code == a.code && !(d.id == oid))
          = true)) := by
  refine ⟨AttachmentService.create_duplicate_iff, ImageService.create_duplicate_iff_image, ?_, ?_,
    AttachmentRepo.update_duplicate_iff, ImageRepo.update_duplicate_iff_image⟩
  · intro cfg docs attachment attachment_id out h
    obtain ⟨_, hfn, hcode, _⟩ := AttachmentService.create_ok_shape h
    exact ⟨hcode, hfn⟩
  · intro cfg docs attachment attachment_id attachment_id2 eid aid2 out he ha2 h1 hlim2 hext
    obtain ⟨hdocs, hfn, hcode, hent⟩ := AttachmentService.create_ok_shape h1
    rw [AttachmentService.create_duplicate_iff cfg _ attachment attachment_id2 eid aid2
      he ha2 hlim2 hext]
    rw [hdocs, List.any_append]
    have hout : (out.entity_id == eid && out.code == generate_code attachment.file_name)
        = true := by
      rw [hent eid he, hcode]
      simp
    simp [hout]

/-- Witness for C2: with limit 2 and an empty collection, the first create of
`(E, "report.txt")` succeeds and the second create of the same pair on the resulting state
fails with `DuplicateRecord`; a create of `"Report.txt"` (different case) against the
stored `"report.txt"` does not hit the duplicate error (case-sensitive comparison); and a
repository update renaming a record to a file name another record of the entity already
holds fails with `DuplicateRecord`. -/
theorem C2_duplicate_file_name_witness :
    (AttachmentService.create ⟨2, 2, [".txt"], 100⟩
        (AttachmentService.create ⟨2, 2, [".txt"], 100⟩ []
          ⟨"bbbbbbbbbbbbbbbbbbbbbbbb", "report.txt", none, none⟩
          "aaaaaaaaaaaaaaaaaaaaaaaa").docs
        ⟨"bbbbbbbbbbbbbbbbbbbbbbbb", "report.txt", none, none⟩
        "cccccccccccccccccccccccc").outcome = .error .duplicateRecord ∧
    ¬((AttachmentService.create ⟨2, 2, [".txt"], 100⟩
        [⟨"aaaaaaaaaaaaaaaaaaaaaaaa", "bbbbbbbbbbbbbbbbbbbbbbbb", "report.txt", "report.txt",
          "attachments/bbbbbbbbbbbbbbbbbbbbbbbb/aaaaaaaaaaaaaaaaaaaaaaaa", none, none⟩]
        ⟨"bbbbbbbbbbbbbbbbbbbbbbbb", "Report.txt", none, none⟩
        "cccccccccccccccccccccccc").outcome = .error .duplicateRecord) ∧
    AttachmentRepo.update
        [⟨"aaaaaaaaaaaaaaaaaaaaaaaa", "bbbbbbbbbbbbbbbbbbbbbbbb", "old.txt", "old.txt",
          "attachments/bbbbbbbbbbbbbbbbbbbbbbbb/aaaaaaaaaaaaaaaaaaaaaaaa", none, none⟩,
         ⟨"cccccccccccccccccccccccc", "bbbbbbbbbbbbbbbbbbbbbbbb", "new.txt", "new.txt",
          "attachments/bbbbbbbbbbbbbbbbbbbbbbbb/cccccccccccccccccccccccc", none, none⟩]
        "cccccccccccccccccccccccc"
        ⟨"cccccccccccccccccccccccc", "bbbbbbbbbbbbbbbbbbbbbbbb", "old.txt", "old.txt",
          "attachments/bbbbbbbbbbbbbbbbbbbbbbbb/cccccccccccccccccccccccc", none, none⟩ =
      .error .duplicateRecord := by
  refine ⟨?_, ?_, ?_⟩
  · exact C2_duplicate_file_name.2.2.2.1 ⟨2, 2, [".txt"], 100⟩ []
      ⟨"bbbbbbbbbbbbbbbbbbbbbbbb", "report.txt", none, none⟩
      "aaaaaaaaaaaaaaaaaaaaaaaa" "cccccccccccccccccccccccc"
      "bbbbbbbbbbbbbbbbbbbbbbbb" "cccccccccccccccccccccccc"
      ⟨"aaaaaaaaaaaaaaaaaaaaaaaa", "bbbbbbbbbbbbbbbbbbbbbbbb", "report.txt", "report.txt",
        "attachments/bbbbbbbbbbbbbbbbbbbbbbbb/aaaaaaaaaaaaaaaaaaaaaaaa", none, none⟩
      (by decide) (by decide) (by decide) (by decide) (by decide)
  · intro hc
    have := (C2_duplicate_file_name.1 ⟨2, 2, [".txt"], 100⟩
      [⟨"aaaaaaaaaaaaaaaaaaaaaaaa", "bbbbbbbbbbbbbbbbbbbbbbbb", "report.txt", "report.txt",
        "attachments/bbbbbbbbbbbbbbbbbbbbbbbb/aaaaaaaaaaaaaaaaaaaaaaaa", none, none⟩]
      ⟨"bbbbbbbbbbbbbbbbbbbbbbbb", "Report.txt", none, none⟩
      "cccccccccccccccccccccccc" "bbbbbbbbbbbbbbbbbbbbbbbb" "cccccccccccccccccccccccc"
      (by decide) (by decide) (by decide) (by decide)).mp hc
    exact absurd this (by decide)
  · exact (C2_duplicate_file_name.2.2.2.2.1
      [⟨"aaaaaaaaaaaaaaaaaaaaaaaa", "bbbbbbbbbbbbbbbbbbbbbbbb", "old.txt", "old.txt",
        "attachments/bbbbbbbbbbbbbbbbbbbbbbbb/aaaaaaaaaaaaaaaaaaaaaaaa", none, none⟩,
       ⟨"cccccccccccccccccccccccc", "bbbbbbbbbbbbbbbbbbbbbbbb", "new.txt", "new.txt",
        "attachments/bbbbbbbbbbbbbbbbbbbbbbbb/cccccccccccccccccccccccc", none, none⟩]
      "cccccccccccccccccccccccc"
      ⟨"cccccccccccccccccccccccc", "bbbbbbbbbbbbbbbbbbbbbbbb", "old.txt", "old.txt",
        "attachments/bbbbbbbbbbbbbbbbbbbbbbbb/cccccccccccccccccccccccc", none, none⟩
      "cccccccccccccccccccccccc"
      ⟨"cccccccccccccccccccccccc", "bbbbbbbbbbbbbbbbbbbbbbbb", "new.txt", "new.txt",
        "attachments/bbbbbbbbbbbbbbbbbbbbbbbb/cccccccccccccccccccccccc", none, none⟩
      (by decide) (by decide) (by decide)).mpr (by decide)

/-- Replacing the (present) target document by one with the same id makes the re-read
return the replacement. -/
theorem AttachmentRepo.findById_applyTarget (docs : List AttachmentDoc) (oid : String)
    (a : AttachmentDoc) (ha : a.id = oid)
    (hsome : (AttachmentRepo.findById docs oid).isSome = true) :
    AttachmentRepo.findById (docs.map (fun d => if d.id == oid then a else d)) oid
      = some a := by
  unfold AttachmentRepo.findById at hsome ⊢
  induction docs with
  | nil => simp at hsome
  | cons x xs ih =>
    rw [List.map_cons]
    by_cases hx : (x.id == oid) = true
    · rw [List.find?_cons_of_pos _ (by simp only [if_pos hx]; simp [ha]), if_pos hx]
    · rw [List.find?_cons_of_neg _ (by simp only [if_neg hx]; exact hx)]
      rw [List.find?_cons_of_neg _ (by exact hx)] at hsome
      exact ih hsome

/-- Image analogue of `findById_applyTarget`. -/
theorem ImageRepo.findById_applyTarget_image (docs : List ImageDoc) (oid : String)
    (a : ImageDoc) (ha : a.id = oid)
    (hsome : (ImageRepo.findById docs oid).isSome = true) :
    ImageRepo.findById (ImageRepo.applyTargetUpdate docs oid a) oid = some a := by
  unfold ImageRepo.applyTargetUpdate
  unfold ImageRepo.findById at hsome ⊢
  induction docs with
  | nil => simp at hsome
  | cons x xs ih =>
    rw [List.map_cons]
    by_cases hx : (x.id == oid) = true
    · rw [List.find?_cons_of_pos _ (by simp only [if_pos hx]; simp [ha]), if_pos hx]
    · rw [List.find?_cons_of_neg _ (by simp only [if_neg hx]; exact hx)]
      rw [List.find?_cons_of_neg _ (by exact hx)] at hsome
      exact ih hsome

/-- A map that preserves ids preserves whether an id is found. -/
theorem ImageRepo.findById_map_id_preserving (f : ImageDoc → ImageDoc)
    (hf : ∀ d, (f d).id = d.id) (docs : List ImageDoc) (oid : String) :
    (ImageRepo.findById (docs.map f) oid).isSome = (ImageRepo.findById docs oid).isSome := by
  unfold ImageRepo.findById
  induction docs with
  | nil => rfl
  | cons x xs ih =>
    rw [List.map_cons]
    by_cases hx : (x.id == oid) = true
    · rw [List.find?_cons_of_pos _ (by rw [hf x]; exact hx),
        List.find?_cons_of_pos _ (by exact hx)]
      rfl
    · rw [List.find?_cons_of_neg _ (by rw [hf x]; exact hx),
        List.find?_cons_of_neg _ (by exact hx)]
      exact ih

/-- `clearPrimary` touches only the `primary` flag, so lookups by id still succeed. -/
theorem ImageRepo.findById_clearPrimary_isSome (docs : List ImageDoc) (e oid : String) :
    (ImageRepo.findById (ImageRepo.clearPrimary docs e) oid).isSome =
      (ImageRepo.findById docs oid).isSome := by
  unfold ImageRepo.clearPrimary
  exact ImageRepo.findById_map_id_preserving _ (fun d => by split <;> rfl) docs oid

/-- C9: for every repository update (attachment or image) in which the submitted
`file_name` equals the stored record's `file_name`, the duplicate check is skipped
entirely — `DuplicateRecord` is never raised, even if another record of the same entity
already carries that name (no such hypothesis appears below) — and the update proceeds to
the plain write. -/
theorem C9_update_same_file_name_skips_duplicate_check :
    (∀ (docs : List AttachmentDoc) (attachment_id : String) (a : AttachmentDoc)
        (oid : String) (stored : AttachmentDoc),
      parseObjectId attachment_id = some oid →
      AttachmentRepo.findById docs oid = some stored →
      a.file_name = stored.file_name →
      AttachmentRepo.update docs attachment_id a ≠ .error .duplicateRecord ∧
      (a.id = oid →
        AttachmentRepo.update docs attachment_id a =
          .ok (docs.map (fun d => if d.id == oid then a else d), a))) ∧
    (∀ (docs : List ImageDoc) (image_id : String) (a : ImageDoc) (update_primary : Bool)
        (oid : String) (stored : ImageDoc),
      parseObjectId image_id = some oid →
      ImageRepo.findById docs oid = some stored →
      a.file_name = stored.file_name →
      ImageRepo.update docs image_id a update_primary ≠ .error .duplicateRecord ∧
      (a.id = oid →
        ImageRepo.update docs image_id a update_primary =
          .ok ((if update_primary then
              ImageRepo.applyTargetUpdate (ImageRepo.clearPrimary docs a.entity_id) oid a
            else ImageRepo.applyTargetUpdate docs oid a), a))) := by
  constructor
  · intro docs attachment_id a oid stored hoid hfind hsame
    have hsome : (AttachmentRepo.findById docs oid).isSome = true := by
      rw [hfind]; rfl
    rw [AttachmentRepo.findById] at hfind
    constructor
    · unfold AttachmentRepo.update
      simp only [hoid, AttachmentRepo.findById, hfind]
      rw [if_neg (by simp [hsame])]
      intro hc
      split at hc
      · exact absurd hc (by simp)
      · exact absurd hc (by simp)
    · intro ha
      have hres := AttachmentRepo.findById_applyTarget docs oid a ha hsome
      rw [AttachmentRepo.findById] at hres
      unfold AttachmentRepo.update
      simp only [hoid, AttachmentRepo.findById, hfind]
      rw [if_neg (by simp [hsame])]
      simp only [hres]
  · intro docs image_id a update_primary oid stored hoid hfind hsame
    have hsome : (ImageRepo.findById docs oid).isSome = true := by
      rw [hfind]; rfl
    rw [ImageRepo.findById] at hfind
    constructor
    · unfold ImageRepo.update
      simp only [hoid, ImageRepo.findById, hfind]
      rw [if_neg (by simp [hsame])]
      intro hc
      split at hc
      · exact absurd hc (by simp)
      · exact absurd hc (by simp)
    · intro ha
      cases update_primary with
      | false =>
        have hres := ImageRepo.findById_applyTarget_image docs oid a ha hsome
        unfold ImageRepo.update
        simp only [hoid, ImageRepo.findById, hfind]
        rw [if_neg (by simp [hsame])]
        rw [ImageRepo.findById] at hres
        unfold ImageRepo.applyTargetUpdate at hres ⊢
        simp only [Bool.false_eq_true, if_false, hres]
      | true =>
        have hsome1 : (ImageRepo.findById
            (ImageRepo.clearPrimary docs a.entity_id) oid).isSome = true := by
          rw [ImageRepo.findById_clearPrimary_isSome]
          exact hsome
        have hres := ImageRepo.findById_applyTarget_image
          (ImageRepo.clearPrimary docs a.entity_id) oid a ha hsome1
        unfold ImageRepo.update
        simp only [hoid, ImageRepo.findById, hfind]
        rw [if_neg (by simp [hsame])]
        rw [ImageRepo.findById] at hres
        unfold ImageRepo.applyTargetUpdate at hres ⊢
        simp only [eq_self_iff_true, if_true, hres]

/-- Witness for C9: a repository update keeping the stored file name `"old.txt"` succeeds
(and in particular does not raise `DuplicateRecord`) even though the other record of the
entity also carries code `"old.txt"`. -/
theorem C9_update_same_file_name_witness :
    AttachmentRepo.update
        [⟨"aaaaaaaaaaaaaaaaaaaaaaaa", "bbbbbbbbbbbbbbbbbbbbbbbb", "old.txt", "old.txt",
          "attachments/bbbbbbbbbbbbbbbbbbbbbbbb/aaaaaaaaaaaaaaaaaaaaaaaa", none, none⟩,
         ⟨"cccccccccccccccccccccccc", "bbbbbbbbbbbbbbbbbbbbbbbb", "old.txt", "old.txt",
          "attachments/bbbbbbbbbbbbbbbbbbbbbbbb/cccccccccccccccccccccccc", none, none⟩]
        "cccccccccccccccccccccccc"
        ⟨"cccccccccccccccccccccccc", "bbbbbbbbbbbbbbbbbbbbbbbb", "old.txt", "old.txt",
          "attachments/bbbbbbbbbbbbbbbbbbbbbbbb/cccccccccccccccccccccccc", some "t", none⟩ =
      .ok ([⟨"aaaaaaaaaaaaaaaaaaaaaaaa", "bbbbbbbbbbbbbbbbbbbbbbbb", "old.txt", "old.txt",
          "attachments/bbbbbbbbbbbbbbbbbbbbbbbb/aaaaaaaaaaaaaaaaaaaaaaaa", none, none⟩,
         ⟨"cccccccccccccccccccccccc", "bbbbbbbbbbbbbbbbbbbbbbbb", "old.txt", "old.txt",
          "attachments/bbbbbbbbbbbbbbbbbbbbbbbb/cccccccccccccccccccccccc", some "t", none⟩],
        ⟨"cccccccccccccccccccccccc", "bbbbbbbbbbbbbbbbbbbbbbbb", "old.txt", "old.txt",
          "attachments/bbbbbbbbbbbbbbbbbbbbbbbb/cccccccccccccccccccccccc", some "t", none⟩) := by
  have h := (C9_update_same_file_name_skips_duplicate_check.1
    [⟨"aaaaaaaaaaaaaaaaaaaaaaaa", "bbbbbbbbbbbbbbbbbbbbbbbb", "old.txt", "old.txt",
      "attachments/bbbbbbbbbbbbbbbbbbbbbbbb/aaaaaaaaaaaaaaaaaaaaaaaa", none, none⟩,
     ⟨"cccccccccccccccccccccccc", "bbbbbbbbbbbbbbbbbbbbbbbb", "old.txt", "old.txt",
      "attachments/bbbbbbbbbbbbbbbbbbbbbbbb/cccccccccccccccccccccccc", none, none⟩]
    "cccccccccccccccccccccccc"
    ⟨"cccccccccccccccccccccccc", "bbbbbbbbbbbbbbbbbbbbbbbb", "old.txt", "old.txt",
      "attachments/bbbbbbbbbbbbbbbbbbbbbbbb/cccccccccccccccccccccccc", some "t", none⟩
    "cccccccccccccccccccccccc"
    ⟨"cccccccccccccccccccccccc", "bbbbbbbbbbbbbbbbbbbbbbbb", "old.txt", "old.txt",
      "attachments/bbbbbbbbbbbbbbbbbbbbbbbb/cccccccccccccccccccccccc", none, none⟩
    (by decide) (by decide) (by decide)).2 (by decide)
  rw [h]
  decide

/-- When the duplicate guard is off, `ImageRepo.update` performs the write (the ordered
bulk write when `update_primary`, the single-document update otherwise) and re-reads the
replaced document. -/
theorem ImageRepo.update_write (docs : List ImageDoc) (image_id : String) (a : ImageDoc)
    (update_primary : Bool) (oid : String) (stored : ImageDoc)
    (hoid : parseObjectId image_id = some oid)
    (hfind : ImageRepo.findById docs oid = some stored)
    (hguard : (a.file_name != stored.file_name &&
      ImageRepo.is_duplicate docs a.entity_id a.code (some oid)) = false)
    (ha : a.id = oid) :
    ImageRepo.update docs image_id a update_primary =
      .ok ((if update_primary then
          ImageRepo.applyTargetUpdate (ImageRepo.clearPrimary docs a.entity_id) oid a
        else ImageRepo.applyTargetUpdate docs oid a), a) := by
  have hsome : (ImageRepo.findById docs oid).isSome = true := by rw [hfind]; rfl
  rw [ImageRepo.findById] at hfind
  cases update_primary with
  | false =>
    have hres := ImageRepo.findById_applyTarget_image docs oid a ha hsome
    unfold ImageRepo.update
    simp only [hoid, ImageRepo.findById, hfind]
    rw [if_neg (by simp [hguard])]
    rw [ImageRepo.findById] at hres
    unfold ImageRepo.applyTargetUpdate at hres ⊢
    simp only [Bool.false_eq_true, if_false, hres]
  | true =>
    have hsome1 : (ImageRepo.findById
        (ImageRepo.clearPrimary docs a.entity_id) oid).isSome = true := by
      rw [ImageRepo.findById_clearPrimary_isSome]
      exact hsome
    have hres := ImageRepo.findById_applyTarget_image
      (ImageRepo.clearPrimary docs a.entity_id) oid a ha hsome1
    unfold ImageRepo.update
    simp only [hoid, ImageRepo.findById, hfind]
    rw [if_neg (by simp [hguard])]
    rw [ImageRepo.findById] at hres
    unfold ImageRepo.applyTargetUpdate at hres ⊢
    simp only [eq_self_iff_true, if_true, hres]

/-- When the duplicate guard fires, `ImageRepo.update` fails with `DuplicateRecord`. -/
theorem ImageRepo.update_dup_error (docs : List ImageDoc) (image_id : String)
    (a : ImageDoc) (update_primary : Bool) (oid : String) (stored : ImageDoc)
    (hoid : parseObjectId image_id = some oid)
    (hfind : ImageRepo.findById docs oid = some stored)
    (hguard : (a.file_name != stored.file_name &&
      ImageRepo.is_duplicate docs a.entity_id a.code (some oid)) = true) :
    ImageRepo.update docs image_id a update_primary = .error .duplicateRecord := by
  rw [ImageRepo.findById] at hfind
  unfold ImageRepo.update
  simp only [hoid, ImageRepo.findById, hfind]
  rw [if_pos hguard]

/-- The merged document of `ImageService.update` keeps the stored id and entity id. -/
theorem ImageService.mergePatch_id (stored : ImageDoc) (patch : ImagePatchMetadataSchema) :
    (ImageService.mergePatch stored patch).id = stored.id := rfl

/-- `mergePatch` keeps the stored entity id. -/
theorem ImageService.mergePatch_entity_id (stored : ImageDoc)
    (patch : ImagePatchMetadataSchema) :
    (ImageService.mergePatch stored patch).entity_id = stored.entity_id := rfl

/-- Without a `false → true` primary transition, the merged document is primary only if
the stored one already was. -/
theorem ImageService.mergePatch_primary_of_flag_false (stored : ImageDoc)
    (patch : ImagePatchMetadataSchema)
    (h : ImageService.updatePrimaryFlag patch stored = false) :
    (ImageService.mergePatch stored patch).primary = true → stored.primary = true := by
  unfold ImageService.updatePrimaryFlag at h
  unfold ImageService.mergePatch
  cases hp : patch.primary with
  | none => intro h2; simpa [hp] using h2
  | some b =>
    cases b
    · intro h2; simp [hp] at h2
    · intro _
      rw [hp] at h
      simp at h
      simp [h]

/-- With a `false → true` primary transition, the merged document is primary. -/
theorem ImageService.mergePatch_primary_of_flag_true (stored : ImageDoc)
    (patch : ImagePatchMetadataSchema)
    (h : ImageService.updatePrimaryFlag patch stored = true) :
    (ImageService.mergePatch stored patch).primary = true := by
  unfold ImageService.updatePrimaryFlag at h
  unfold ImageService.mergePatch
  simp only [Bool.and_eq_true, beq_iff_eq] at h
  simp [h.1]

/-- Case analysis of the collection state after `ImageService.update`: either unchanged,
or the write prescribed by the `update_primary` flag on the merged document. -/
theorem ImageService.update_docs_cases (docs : List ImageDoc) (image_id : String)
    (patch : ImagePatchMetadataSchema) :
    (ImageService.update docs image_id patch).docs = docs ∨
    ∃ oid stored,
      parseObjectId image_id = some oid ∧
      ImageRepo.findById docs oid = some stored ∧
      (ImageService.update docs image_id patch).docs =
        (if ImageService.updatePrimaryFlag patch stored then
          ImageRepo.applyTargetUpdate
            (ImageRepo.clearPrimary docs (ImageService.mergePatch stored patch).entity_id)
            oid (ImageService.mergePatch stored patch)
        else ImageRepo.applyTargetUpdate docs oid (ImageService.mergePatch stored patch)) := by
  cases hget : ImageRepo.get docs image_id with
  | error e =>
    left
    unfold ImageService.update
    rw [hget]
  | ok stored =>
    obtain ⟨oid, hoid, hfind⟩ := ImageRepo.get_ok_image hget
    have hsid : stored.id = oid := by
      rw [ImageRepo.findById] at hfind
      have hb := List.find?_some hfind
      exact eq_of_beq hb
    by_cases htype : (match patch.file_name with
        | none => true
        | some fn => mimetypesGuessType fn == mimetypesGuessType stored.file_name) = true
    · by_cases hguard : ((ImageService.mergePatch stored patch).file_name !=
          stored.file_name &&
          ImageRepo.is_duplicate docs (ImageService.mergePatch stored patch).entity_id
            (ImageService.mergePatch stored patch).code (some oid)) = true
      · left
        have hrep := ImageRepo.update_dup_error docs image_id
          (ImageService.mergePatch stored patch)
          (ImageService.updatePrimaryFlag patch stored) oid stored hoid hfind hguard
        unfold ImageService.update
        simp only [hget]
        rw [if_neg (by simp [htype]), hrep]
      · right
        refine ⟨oid, stored, hoid, hfind, ?_⟩
        have hrep := ImageRepo.update_write docs image_id
          (ImageService.mergePatch stored patch)
          (ImageService.updatePrimaryFlag patch stored) oid stored hoid hfind
          (Bool.eq_false_iff.mpr hguard)
          (by rw [ImageService.mergePatch_id, hsid])
        unfold ImageService.update
        simp only [hget]
        rw [if_neg (by simp [htype]), hrep]
    · left
      unfold ImageService.update
      simp only [hget]
      rw [if_pos (by simp [Bool.eq_false_iff.mpr htype])]

/-- A successful `ImageRepo.create` implies the inserted `_id` was fresh (the unique-index
guard passed). -/
theorem ImageRepo.create_ok_fresh {cfg : Config} {docs : List ImageDoc} {a : ImageDoc}
    {docs' : List ImageDoc} {out : ImageDoc}
    (h : ImageRepo.create cfg docs a = .ok (docs', out)) :
    docs.any (fun d => d.id == a.id) = false := by
  unfold ImageRepo.create at h
  split at h
  · exact absurd h (by simp)
  · split at h
    · exact absurd h (by simp)
    · split at h
      · exact absurd h (by simp)
      · rename_i hid
        exact Bool.eq_false_iff.mpr hid

/-- Case analysis of the collection state after `ImageService.create`: either unchanged,
or extended by one non-primary document with a fresh id. -/
theorem ImageService.create_docs_cases (cfg : Config) (docs : List ImageDoc)
    (image_metadata : ImagePostMetadataSchema) (upload_file : UploadFileState)
    (image_id : String) (decode : List Nat → Option String) :
    (ImageService.create cfg docs image_metadata upload_file image_id decode).docs = docs ∨
    ∃ doc : ImageDoc,
      (ImageService.create cfg docs image_metadata upload_file image_id decode).docs =
        docs ++ [doc] ∧
      doc.primary = false ∧
      docs.any (fun d => d.id == doc.id) = false := by
  unfold ImageService.create
  cases hpe : parseObjectId image_metadata.entity_id with
  | none => left; rfl
  | some eid =>
    simp only []
    by_cases hlim : cfg.image_upload_limit ≤ ImageRepo.count_by_entity_id docs eid
    · rw [if_pos hlim]; left; rfl
    · rw [if_neg hlim]
      by_cases hmime : (mimetypesGuessType upload_file.filename !=
          upload_file.content_type) = true
      · rw [if_pos hmime]; left; rfl
      · rw [if_neg hmime]
        cases hthumb : generate_thumbnail_base64_str decode upload_file with
        | error e => left; rfl
        | ok p =>
          obtain ⟨thumbnail, upload_file'⟩ := p
          simp only []
          cases hpi : parseObjectId image_id with
          | none => left; rfl
          | some iid =>
            simp only []
            generalize hcr : ImageRepo.create cfg docs
                ⟨iid, eid, upload_file.filename, generate_code upload_file.filename,
                 (ImageStore.upload image_id image_metadata upload_file').1,
                 image_metadata.title, image_metadata.description, false, thumbnail⟩ = res
            cases res with
            | error e => left; rfl
            | ok q =>
              obtain ⟨docs', out⟩ := q
              right
              obtain ⟨hdocs, hout⟩ := ImageRepo.create_ok_image hcr
              exact ⟨_, by rw [hdocs], rfl, ImageRepo.create_ok_fresh hcr⟩

/-- `countPrimary` as a `countP`. -/
theorem countPrimary_eq_countP (docs : List ImageDoc) (e : String) :
    countPrimary docs e = docs.countP (fun d => d.entity_id == e && d.primary) := by
  unfold countPrimary
  rw [List.countP_eq_length_filter]

/-- Appending a non-primary document changes no primary count. -/
theorem countPrimary_append_nonprimary (docs : List ImageDoc) (doc : ImageDoc) (e : String)
    (h : doc.primary = false) :
    countPrimary (docs ++ [doc]) e = countPrimary docs e := by
  rw [countPrimary_eq_countP, countPrimary_eq_countP, List.countP_append]
  simp [List.countP_cons, h]

/-- A document found by id is a member carrying that id. -/
theorem ImageRepo.findById_some_mem {docs : List ImageDoc} {oid : String}
    {stored : ImageDoc} (hfind : ImageRepo.findById docs oid = some stored) :
    stored ∈ docs ∧ stored.id = oid := by
  rw [ImageRepo.findById] at hfind
  have h1 := List.mem_of_find?_eq_some hfind
  have h2 := List.find?_some hfind
  exact ⟨h1, eq_of_beq h2⟩

/-- Inserting a fresh id keeps the id list duplicate-free. -/
theorem nodup_ids_append (docs : List ImageDoc) (doc : ImageDoc)
    (hnd : (docs.map (fun d => d.id)).Nodup)
    (hfresh : docs.any (fun d => d.id == doc.id) = false) :
    ((docs ++ [doc]).map (fun d => d.id)).Nodup := by
  rw [List.map_append]
  refine List.Nodup.append hnd (by simp) ?_
  intro x hx hx2
  simp only [List.map_cons, List.map_nil, List.mem_singleton] at hx2
  obtain ⟨d, hd, hdx⟩ := List.mem_map.mp hx
  have hno := List.any_eq_false.mp hfresh d hd
  apply hno
  rw [hdx, hx2]
  exact beq_self_eq_true doc.id

/-- A pointwise id-preserving map keeps the id list. -/
theorem map_ids_of_id_preserving (docs : List ImageDoc) (g : ImageDoc → ImageDoc)
    (hg : ∀ d ∈ docs, (g d).id = d.id) :
    (docs.map g).map (fun d => d.id) = docs.map (fun d => d.id) := by
  induction docs with
  | nil => rfl
  | cons x xs ih =>
    have h1 := hg x (List.mem_cons_self x xs)
    have h2 := ih (fun d hd => hg d (List.mem_cons_of_mem x hd))
    simp only [List.map_cons, h1, h2]

/-- Under duplicate-free ids, two stored documents with the same id are equal. -/
theorem eq_of_mem_nodup_ids {docs : List ImageDoc} {x y : ImageDoc}
    (hnd : (docs.map (fun d => d.id)).Nodup) (hx : x ∈ docs) (hy : y ∈ docs)
    (hxy : x.id = y.id) : x = y :=
  List.inj_on_of_nodup_map hnd hx hy hxy

/-- The single-document update cannot increase any entity's primary count when the
replacement is primary only if the replaced (stored) document was. -/
theorem countPrimary_applyTarget_le (docs : List ImageDoc) (oid : String)
    (merged stored : ImageDoc) (e : String)
    (hnd : (docs.map (fun d => d.id)).Nodup)
    (hfind : ImageRepo.findById docs oid = some stored)
    (hprim : merged.primary = true → stored.primary = true)
    (hent : merged.entity_id = stored.entity_id) :
    countPrimary (ImageRepo.applyTargetUpdate docs oid merged) e ≤ countPrimary docs e := by
  obtain ⟨hmem, hsid⟩ := ImageRepo.findById_some_mem hfind
  unfold ImageRepo.applyTargetUpdate
  rw [countPrimary_eq_countP, countPrimary_eq_countP, List.countP_map]
  apply List.countP_mono_left
  intro d hd hpd
  simp only [Function.comp_apply] at hpd
  by_cases hdo : (d.id == oid) = true
  · have hds : d = stored := eq_of_mem_nodup_ids hnd hd hmem (by rw [eq_of_beq hdo, hsid])
    rw [if_pos hdo] at hpd
    rw [Bool.and_eq_true] at hpd ⊢
    subst hds
    exact ⟨by rw [← hent]; exact hpd.1, hprim hpd.2⟩
  · rwa [if_neg hdo] at hpd

/-- The clear-then-set bulk write makes the target's entity count the number of documents
carrying the target id. -/
theorem countPrimary_bulk_eq (docs : List ImageDoc) (oid eM : String) (merged : ImageDoc)
    (hm_ent : merged.entity_id = eM) (hm_prim : merged.primary = true) :
    countPrimary
      (ImageRepo.applyTargetUpdate (ImageRepo.clearPrimary docs eM) oid merged) eM =
      docs.countP (fun d => d.id == oid) := by
  unfold ImageRepo.applyTargetUpdate ImageRepo.clearPrimary
  induction docs with
  | nil => rfl
  | cons x xs ih =>
    rw [List.map_cons, List.map_cons]
    rw [countPrimary_eq_countP] at ih ⊢
    rw [List.countP_cons, List.countP_cons, ih]
    congr 1
    by_cases hdo : (x.id == oid) = true
    · have hgc : (if ((if x.primary == true && x.entity_id == eM then
          { x with primary := false } else x)).id == oid then merged
          else (if x.primary == true && x.entity_id == eM then
            { x with primary := false } else x)) = merged := by
        by_cases hc : (x.primary == true && x.entity_id == eM) = true
        · rw [if_pos hc]
          exact if_pos hdo
        · rw [if_neg hc]
          exact if_pos hdo
      rw [hgc, if_pos hdo]
      have : (merged.entity_id == eM && merged.primary) = true := by
        rw [Bool.and_eq_true, beq_iff_eq]
        exact ⟨hm_ent, hm_prim⟩
      rw [if_pos this]
    · rw [if_neg hdo]
      by_cases hc : (x.primary == true && x.entity_id == eM) = true
      · have hgc : (if ((if x.primary == true && x.entity_id == eM then
            { x with primary := false } else x)).id == oid then merged
            else (if x.primary == true && x.entity_id == eM then
              { x with primary := false } else x)) = { x with primary := false } := by
          rw [if_pos hc]
          exact if_neg hdo
        rw [hgc]
        simp
      · have hgc : (if ((if x.primary == true && x.entity_id == eM then
            { x with primary := false } else x)).id == oid then merged
            else (if x.primary == true && x.entity_id == eM then
              { x with primary := false } else x)) = x := by
          rw [if_neg hc]
          exact if_neg hdo
        rw [hgc]
        have hx : (x.entity_id == eM && x.primary) = false := by
          cases hp : x.primary
          · simp
          · have h2 := Bool.eq_false_iff.mpr hc
            rw [hp] at h2
            simp only [beq_self_eq_true, Bool.true_and] at h2
            simp [h2]
        rw [if_neg (by simp [hx])]

/-- The bulk write cannot increase another entity's primary count. -/
theorem countPrimary_bulk_other_le (docs : List ImageDoc) (oid eM : String)
    (merged : ImageDoc) (e : String)
    (hm_ent : merged.entity_id = eM) (hne : e ≠ eM) :
    countPrimary
      (ImageRepo.applyTargetUpdate (ImageRepo.clearPrimary docs eM) oid merged) e ≤
      countPrimary docs e := by
  unfold ImageRepo.applyTargetUpdate ImageRepo.clearPrimary
  rw [countPrimary_eq_countP, countPrimary_eq_countP, List.map_map, List.countP_map]
  apply List.countP_mono_left
  intro d hd hpd
  simp only [Function.comp_apply] at hpd
  by_cases hc : (d.primary == true && d.entity_id == eM) = true
  · rw [if_pos hc] at hpd
    by_cases hdo : (({ d with primary := false } : ImageDoc).id == oid) = true
    · rw [if_pos hdo, Bool.and_eq_true, beq_iff_eq] at hpd
      exact absurd (hm_ent ▸ hpd.1.symm) (by simpa using hne)
    · rw [if_neg hdo] at hpd
      simp at hpd
  · rw [if_neg hc] at hpd
    by_cases hdo : (d.id == oid) = true
    · rw [if_pos hdo, Bool.and_eq_true, beq_iff_eq] at hpd
      exact absurd (hm_ent ▸ hpd.1.symm) (by simpa using hne)
    · rwa [if_neg hdo] at hpd

/-- Main invariant: along any sequence of service-level image creates and updates, stored
ids stay duplicate-free and every entity has at most one primary image. -/
theorem imageReachable_invariant (cfg : Config) (docs : List ImageDoc)
    (h : ImageReachable cfg docs) :
    (docs.map (fun d => d.id)).Nodup ∧ ∀ e, countPrimary docs e ≤ 1 := by
  induction h with
  | empty => exact ⟨List.nodup_nil, fun e => by simp [countPrimary]⟩
  | create docs meta f iid dec hprev ih =>
    rcases ImageService.create_docs_cases cfg docs meta f iid dec with
      hs | ⟨doc, hdocs, hprim, hfresh⟩
    · rw [hs]; exact ih
    · rw [hdocs]
      refine ⟨nodup_ids_append docs doc ih.1 hfresh, fun e => ?_⟩
      rw [countPrimary_append_nonprimary docs doc e hprim]
      exact ih.2 e
  | update docs image_id patch hprev ih =>
    rcases ImageService.update_docs_cases docs image_id patch with
      hs | ⟨oid, stored, hoid, hfind, hdocs⟩
    · rw [hs]; exact ih
    · obtain ⟨hmem, hsid⟩ := ImageRepo.findById_some_mem hfind
      cases hupf : ImageService.updatePrimaryFlag patch stored with
      | false =>
        rw [hupf] at hdocs
        simp only [Bool.false_eq_true, if_false] at hdocs
        rw [hdocs]
        constructor
        · have hg1 : ∀ d ∈ docs,
              ((fun d => if d.id == oid then ImageService.mergePatch stored patch else d) d).id
                = d.id := by
            intro d _
            by_cases hdo : (d.id == oid) = true
            · simp only [if_pos hdo, ImageService.mergePatch_id, hsid]
              exact (eq_of_beq hdo).symm
            · simp only [if_neg hdo]
          unfold ImageRepo.applyTargetUpdate
          rw [map_ids_of_id_preserving _ _ hg1]
          exact ih.1
        · intro e
          refine le_trans (countPrimary_applyTarget_le docs oid _ stored e ih.1 hfind ?_ ?_)
            (ih.2 e)
          · exact ImageService.mergePatch_primary_of_flag_false stored patch hupf
          · exact ImageService.mergePatch_entity_id stored patch
      | true =>
        rw [hupf] at hdocs
        simp only [if_true] at hdocs
        rw [hdocs]
        constructor
        · have hg1 : ∀ d ∈ ImageRepo.clearPrimary docs
              (ImageService.mergePatch stored patch).entity_id,
              ((fun d => if d.id == oid then ImageService.mergePatch stored patch else d) d).id
                = d.id := by
            intro d _
            by_cases hdo : (d.id == oid) = true
            · simp only [if_pos hdo, ImageService.mergePatch_id, hsid]
              exact (eq_of_beq hdo).symm
            · simp only [if_neg hdo]
          have hg2 : ∀ d ∈ docs,
              ((fun d => if d.primary == true &&
                  d.entity_id == (ImageService.mergePatch stored patch).entity_id then
                { d with primary := false } else d) d).id = d.id := by
            intro d _
            dsimp only
            split <;> rfl
          unfold ImageRepo.applyTargetUpdate
          rw [map_ids_of_id_preserving _ _ hg1]
          unfold ImageRepo.clearPrimary
          rw [map_ids_of_id_preserving _ _ hg2]
          exact ih.1
        · intro e
          by_cases he : e = (ImageService.mergePatch stored patch).entity_id
          · rw [he, countPrimary_bulk_eq docs oid _ _ rfl
              (ImageService.mergePatch_primary_of_flag_true stored patch hupf)]
            have h1 : docs.countP (fun d => d.id == oid) =
                List.count oid (docs.map (fun d => d.id)) := by
              rw [List.count_eq_countP, List.countP_map]
              rfl
            rw [h1]
            exact List.nodup_iff_count_le_one.mp ih.1 oid
          · exact le_trans (countPrimary_bulk_other_le docs oid _ _ e rfl he) (ih.2 e)

/-- C1: (a) along any sequence of image creates and updates against one entity, at most
one image ever has `primary = true` (the ordered bulk write being one transition, the
atomicity the spec assigns to it, so no two-primary or mid-transition zero-primary state is
observable); (b) when `ImageService.update` turns `primary` from false to true, the write
the repository issues is exactly the ordered composite — clear `primary` on the entity's
images, then apply the target update — leaving exactly one primary image for that entity;
(c) when the merged update does not turn `primary` from false to true, only the
single-document update is issued and every other image is left untouched. -/
theorem C1_primary_exclusivity :
    (∀ (cfg : Config) (docs : List ImageDoc), ImageReachable cfg docs →
      ∀ e, countPrimary docs e ≤ 1) ∧
    (∀ (docs : List ImageDoc) (image_id : String) (patch : ImagePatchMetadataSchema)
        (oid : String) (stored : ImageDoc),
      parseObjectId image_id = some oid →
      ImageRepo.findById docs oid = some stored →
      ImageService.updatePrimaryFlag patch stored = true →
      (docs.map (fun d => d.id)).Nodup →
      (ImageService.update docs image_id patch).docs = docs ∨
      ((ImageService.update docs image_id patch).docs =
          ImageRepo.applyTargetUpdate
            (ImageRepo.clearPrimary docs (ImageService.mergePatch stored patch).entity_id)
            oid (ImageService.mergePatch stored patch) ∧
        countPrimary (ImageService.update docs image_id patch).docs
          (ImageService.mergePatch stored patch).entity_id = 1)) ∧
    (∀ (docs : List ImageDoc) (image_id : String) (patch : ImagePatchMetadataSchema)
        (oid : String) (stored : ImageDoc),
      parseObjectId image_id = some oid →
      ImageRepo.findById docs oid = some stored →
      ImageService.updatePrimaryFlag patch stored = false →
      ((ImageService.update docs image_id patch).docs = docs ∨
        (ImageService.update docs image_id patch).docs =
          ImageRepo.applyTargetUpdate docs oid (ImageService.mergePatch stored patch)) ∧
      ∀ d ∈ docs, d.id ≠ oid → d ∈ (ImageService.update docs image_id patch).docs) := by
  refine ⟨fun cfg docs h e => (imageReachable_invariant cfg docs h).2 e, ?_, ?_⟩
  · intro docs image_id patch oid stored hoid hfind hupf hnd
    rcases ImageService.update_docs_cases docs image_id patch with
      hs | ⟨oid', stored', hoid', hfind', hdocs⟩
    · exact Or.inl hs
    · have hoe : oid' = oid := by rw [hoid] at hoid'; cases hoid'; rfl
      rw [hoe] at hfind' hdocs
      have hse : stored' = stored := by rw [hfind] at hfind'; cases hfind'; rfl
      rw [hse] at hdocs
      rw [hupf] at hdocs
      simp only [if_true] at hdocs
      right
      refine ⟨hdocs, ?_⟩
      rw [hdocs, countPrimary_bulk_eq docs oid _ _ rfl
        (ImageService.mergePatch_primary_of_flag_true stored patch hupf)]
      obtain ⟨hmem, hsid⟩ := ImageRepo.findById_some_mem hfind
      have h1 : docs.countP (fun d => d.id == oid) =
          List.count oid (docs.map (fun d => d.id)) := by
        rw [List.count_eq_countP, List.countP_map]
        rfl
      rw [h1]
      exact List.count_eq_one_of_mem hnd (hsid ▸ List.mem_map_of_mem _ hmem)
  · intro docs image_id patch oid stored hoid hfind hupf
    rcases ImageService.update_docs_cases docs image_id patch with
      hs | ⟨oid', stored', hoid', hfind', hdocs⟩
    · exact ⟨Or.inl hs, fun d hd _ => by rw [hs]; exact hd⟩
    · have hoe : oid' = oid := by rw [hoid] at hoid'; cases hoid'; rfl
      rw [hoe] at hfind' hdocs
      have hse : stored' = stored := by rw [hfind] at hfind'; cases hfind'; rfl
      rw [hse] at hdocs
      rw [hupf] at hdocs
      simp only [Bool.false_eq_true, if_false] at hdocs
      refine ⟨Or.inr hdocs, ?_⟩
      intro d hd hne
      rw [hdocs]
      unfold ImageRepo.applyTargetUpdate
      refine List.mem_map.mpr ⟨d, hd, ?_⟩
      rw [if_neg (fun hq => hne (eq_of_beq hq))]

/-- Witness for C1: the empty state trivially satisfies the invariant, and on a concrete
two-image entity, patching the non-primary image with `primary := true` yields the
clear-then-apply composite state with exactly one primary image. -/
theorem C1_primary_exclusivity_witness :
    countPrimary ([] : List ImageDoc) "bbbbbbbbbbbbbbbbbbbbbbbb" ≤ 1 ∧
    ((ImageService.update
        [⟨"aaaaaaaaaaaaaaaaaaaaaaaa", "bbbbbbbbbbbbbbbbbbbbbbbb", "a.png", "a.png",
          "images/bbbbbbbbbbbbbbbbbbbbbbbb/aaaaaaaaaaaaaaaaaaaaaaaa", none, none, true, "t"⟩,
         ⟨"cccccccccccccccccccccccc", "bbbbbbbbbbbbbbbbbbbbbbbb", "b.png", "b.png",
          "images/bbbbbbbbbbbbbbbbbbbbbbbb/cccccccccccccccccccccccc", none, none, false, "t"⟩]
        "cccccccccccccccccccccccc" ⟨none, none, none, some true⟩).docs =
        [⟨"aaaaaaaaaaaaaaaaaaaaaaaa", "bbbbbbbbbbbbbbbbbbbbbbbb", "a.png", "a.png",
          "images/bbbbbbbbbbbbbbbbbbbbbbbb/aaaaaaaaaaaaaaaaaaaaaaaa", none, none, true, "t"⟩,
         ⟨"cccccccccccccccccccccccc", "bbbbbbbbbbbbbbbbbbbbbbbb", "b.png", "b.png",
          "images/bbbbbbbbbbbbbbbbbbbbbbbb/cccccccccccccccccccccccc", none, none, false, "t"⟩] ∨
      ((ImageService.update
          [⟨"aaaaaaaaaaaaaaaaaaaaaaaa", "bbbbbbbbbbbbbbbbbbbbbbbb", "a.png", "a.png",
            "images/bbbbbbbbbbbbbbbbbbbbbbbb/aaaaaaaaaaaaaaaaaaaaaaaa", none, none, true, "t"⟩,
           ⟨"cccccccccccccccccccccccc", "bbbbbbbbbbbbbbbbbbbbbbbb", "b.png", "b.png",
            "images/bbbbbbbbbbbbbbbbbbbbbbbb/cccccccccccccccccccccccc", none, none, false, "t"⟩]
          "cccccccccccccccccccccccc" ⟨none, none, none, some true⟩).docs =
          ImageRepo.applyTargetUpdate
            (ImageRepo.clearPrimary
              [⟨"aaaaaaaaaaaaaaaaaaaaaaaa", "bbbbbbbbbbbbbbbbbbbbbbbb", "a.png", "a.png",
                "images/bbbbbbbbbbbbbbbbbbbbbbbb/aaaaaaaaaaaaaaaaaaaaaaaa", none, none,
                true, "t"⟩,
               ⟨"cccccccccccccccccccccccc", "bbbbbbbbbbbbbbbbbbbbbbbb", "b.png", "b.png",
                "images/bbbbbbbbbbbbbbbbbbbbbbbb/cccccccccccccccccccccccc", none, none,
                false, "t"⟩]
              (ImageService.mergePatch
                ⟨"cccccccccccccccccccccccc", "bbbbbbbbbbbbbbbbbbbbbbbb", "b.png", "b.png",
                 "images/bbbbbbbbbbbbbbbbbbbbbbbb/cccccccccccccccccccccccc", none, none,
                 false, "t"⟩ ⟨none, none, none, some true⟩).entity_id)
            "cccccccccccccccccccccccc"
            (ImageService.mergePatch
              ⟨"cccccccccccccccccccccccc", "bbbbbbbbbbbbbbbbbbbbbbbb", "b.png", "b.png",
               "images/bbbbbbbbbbbbbbbbbbbbbbbb/cccccccccccccccccccccccc", none, none,
               false, "t"⟩ ⟨none, none, none, some true⟩) ∧
        countPrimary
          (ImageService.update
            [⟨"aaaaaaaaaaaaaaaaaaaaaaaa", "bbbbbbbbbbbbbbbbbbbbbbbb", "a.png", "a.png",
              "images/bbbbbbbbbbbbbbbbbbbbbbbb/aaaaaaaaaaaaaaaaaaaaaaaa", none, none,
              true, "t"⟩,
             ⟨"cccccccccccccccccccccccc", "bbbbbbbbbbbbbbbbbbbbbbbb", "b.png", "b.png",
              "images/bbbbbbbbbbbbbbbbbbbbbbbb/cccccccccccccccccccccccc", none, none,
              false, "t"⟩]
            "cccccccccccccccccccccccc" ⟨none, none, none, some true⟩).docs
          (ImageService.mergePatch
            ⟨"cccccccccccccccccccccccc", "bbbbbbbbbbbbbbbbbbbbbbbb", "b.png", "b.png",
             "images/bbbbbbbbbbbbbbbbbbbbbbbb/cccccccccccccccccccccccc", none, none,
             false, "t"⟩ ⟨none, none, none, some true⟩).entity_id = 1)) :=
  ⟨C1_primary_exclusivity.1 ⟨1, 1, [], 100⟩ [] ImageReachable.empty
      "bbbbbbbbbbbbbbbbbbbbbbbb",
   C1_primary_exclusivity.2.1
      [⟨"aaaaaaaaaaaaaaaaaaaaaaaa", "bbbbbbbbbbbbbbbbbbbbbbbb", "a.png", "a.png",
        "images/bbbbbbbbbbbbbbbbbbbbbbbb/aaaaaaaaaaaaaaaaaaaaaaaa", none, none, true, "t"⟩,
       ⟨"cccccccccccccccccccccccc", "bbbbbbbbbbbbbbbbbbbbbbbb", "b.png", "b.png",
        "images/bbbbbbbbbbbbbbbbbbbbbbbb/cccccccccccccccccccccccc", none, none, false, "t"⟩]
      "cccccccccccccccccccccccc" ⟨none, none, none, some true⟩
      "cccccccccccccccccccccccc"
      ⟨"cccccccccccccccccccccccc", "bbbbbbbbbbbbbbbbbbbbbbbb", "b.png", "b.png",
       "images/bbbbbbbbbbbbbbbbbbbbbbbb/cccccccccccccccccccccccc", none, none, false, "t"⟩
      (by decide) (by decide) (by decide) (by decide)⟩

end ObjectStorage
